import Mathlib

/-!
# maws: session-credential lifecycle

A shallow embedding of `main.go` of the `maws` tool: the cached session token, its
expiry test, the MFA renewal workflow, the environment handed to the wrapped `aws`
command and the exit status of the process.

Go strings are lists of characters.  Everything the program obtains from outside
(the file system, standard input, the clock, external commands, the generic part of
`encoding/json`) is read from a `Sys` record of oracles; everything the program does to
the outside is recorded in a `World` (the cache file, the unread input, the trace of
effects).  Functions that return `(T, error)` in Go return `Except GoError T` paired
with the world they leave behind.
-/

namespace Maws

/-- A Go string. -/
abbrev GoString := List Char

/-! ## Constants of `main.go` -/

/-- Name of the wrapped command-line tool. -/
def awsCliCmd : GoString := "aws".toList

/-- The layout handed to `time.Format` and `time.Parse`.  `nextStdChunk` cuts it into
`2006` (stdLongYear), `-`, `01` (stdZeroMonth), `-`, `02` (stdZeroDay), `T`, `15` (stdHour),
`:`, `04` (stdZeroMinute), `:`, `05` (stdZeroSecond), `-07:00` (stdNumColonTZ). -/
def awsTimeLayout : GoString := "2006-01-02T15:04:05-07:00".toList

/-- The double quote character, code point 34. -/
def quote : Char := Char.ofNat 34

/-! ## Errors -/

/-- Go error values, as far as the program tells them apart. -/
inductive GoError where
  /-- An error made by the runtime or a library (`*fs.PathError`, `*time.ParseError`, ...). -/
  | lib (msg : String)
  /-- An error for which `errors.Is(err, fs.ErrNotExist)` holds. -/
  | notExist
  /-- An `*exec.ExitError`; `code` is what its `ExitCode()` returns. -/
  | exitError (code : Int)
  /-- The value of `fmt.Errorf(msg)` with no wrapped error. -/
  | errorf (msg : String)
  /-- The value of `fmt.Errorf(msg + ": %w", inner)`. -/
  | wrap (msg : String) (inner : GoError)
deriving DecidableEq, Repr

/-- The test `errors.Is(err, fs.ErrNotExist)`: follows the chain of wrapped errors. -/
def GoError.isNotExist : GoError → Bool
  | .notExist => true
  | .wrap _ inner => inner.isNotExist
  | _ => false

/-- The call `errors.As(err, &exitError)` with `exitError : *exec.ExitError`: follows the
chain of wrapped errors and yields the exit code of the first `ExitError` found. -/
def GoError.asExitError : GoError → Option Int
  | .exitError code => some code
  | .wrap _ inner => inner.asExitError
  | _ => none

/-! ## Timestamps (`time.Time`) -/

/-- A `time.Time` without monotonic clock reading: an instant, and the offset of its
location at that instant. -/
structure Time where
  /-- Seconds since 1970-01-01T00:00:00Z. -/
  sec : Int
  /-- Nanoseconds within the second. -/
  nsec : Nat
  /-- Seconds east of UTC of the location at this instant. -/
  offset : Int
deriving DecidableEq, Repr

/-- The zero `time.Time`: 0001-01-01T00:00:00Z. -/
def Time.zero : Time := { sec := -62135596800, nsec := 0, offset := 0 }

/-- `Time.Before`: the instant `t` is strictly before the instant `u`. -/
def Time.Before (t u : Time) : Bool :=
  decide (t.sec < u.sec) || (decide (t.sec = u.sec) && decide (t.nsec < u.nsec))

/-- Leap years of the proleptic Gregorian calendar (`time.isLeap`). -/
def isLeap (year : Int) : Bool :=
  year % 4 == 0 && (year % 100 != 0 || year % 400 == 0)

/-- Days of a non-leap year before the first of `month`, and 365 past December
(`time.daysBefore`, with months counted from 1). -/
def daysBefore (month : Int) : Int :=
  if month ≤ 1 then 0 else if month = 2 then 31 else if month = 3 then 59
  else if month = 4 then 90 else if month = 5 then 120 else if month = 6 then 151
  else if month = 7 then 181 else if month = 8 then 212 else if month = 9 then 243
  else if month = 10 then 273 else if month = 11 then 304 else if month = 12 then 334
  else 365

/-- Number of days of `month` in `year` (`time.daysIn`). -/
def daysIn (month year : Int) : Int :=
  if month = 2 then (if isLeap year then 29 else 28)
  else if month = 4 ∨ month = 6 ∨ month = 9 ∨ month = 11 then 30 else 31

/-- Days from 1970-01-01 to the first of January of `year`. -/
def daysSinceEpoch (year : Int) : Int :=
  let y := year - 1
  365 * y + y / 4 - y / 100 + y / 400 - 719162

/-- Days from 1970-01-01 to the civil date `year-month-day`, for a month within 1..12. -/
def dateToDays (year month day : Int) : Int :=
  daysSinceEpoch year + daysBefore month + (if isLeap year ∧ 3 ≤ month then 1 else 0) + (day - 1)

/-- `time.Date(year, month, day, hour, min, sec, nsec, time.UTC)` for fields that are in
range (the only way `time.Parse` calls it: it validates every field first). -/
def Date (year month day hour min sec : Int) (nsec : Nat) : Time :=
  { sec := dateToDays year month day * 86400 + hour * 3600 + min * 60 + sec
    nsec := nsec
    offset := 0 }

/-- Year, and zero-based day within that year, of the day `days` after 1970-01-01: cycles
of 400, 100, 4 and 1 years, counted from 0001-01-01. -/
def yearOfDays (days : Int) : Int × Int :=
  let d := days + 719162
  let n400 := d / 146097
  let r := d % 146097
  let n100 := min (r / 36524) 3
  let r1 := r - 36524 * n100
  let n4 := r1 / 1461
  let r2 := r1 % 1461
  let n1 := min (r2 / 365) 3
  (1 + 400 * n400 + 100 * n100 + 4 * n4 + n1, r2 - 365 * n1)

/-- Month and day of month of the zero-based day `day` of a non-leap year: the month is
estimated as if every month had 31 days, which is too low by at most one. -/
def monthDayCommon (day : Int) : Int × Int :=
  let month := day / 31
  let next := daysBefore (month + 2)
  if next ≤ day then (month + 2, day - next + 1)
  else (month + 1, day - daysBefore (month + 1) + 1)

/-- Month and day of month of the zero-based day `yday` of a year: the leap day is
answered directly, and a day after it is looked up as in a non-leap year. -/
def monthDay (leap : Bool) (yday : Int) : Int × Int :=
  if leap = true ∧ yday = 59 then (2, 29)
  else if leap = true ∧ 59 < yday then monthDayCommon (yday - 1)
  else monthDayCommon yday

/-- Civil date (year, month, day) of the day `days` after 1970-01-01 (`time.absDate`). -/
def absDate (days : Int) : Int × Int × Int :=
  let yd := yearOfDays days
  let md := monthDay (isLeap yd.1) yd.2
  (yd.1, md.1, md.2)

/-- `Time.Year`: the year of `t` in its own location. -/
def Time.Year (t : Time) : Int := (absDate ((t.sec + t.offset) / 86400)).1

/-! ### Formatting with `awsTimeLayout` -/

/-- `time.appendInt`: a minus sign for a negative number, then the decimal digits,
padded with zeros on the left to at least `width` digits. -/
def appendInt (x : Int) (width : Nat) : GoString :=
  let ds := Nat.toDigits 10 x.natAbs
  (if x < 0 then [ '-' ] else []) ++ List.replicate (width - ds.length) '0' ++ ds

/-- The `-07:00` element of `Time.Format`: sign, hours and minutes of the zone offset.
Go divides with truncation towards zero. -/
def formatZone (offset : Int) : GoString :=
  let zone := Int.tdiv offset 60
  let sign := if zone < 0 then '-' else '+'
  let zone := if zone < 0 then -zone else zone
  [sign] ++ appendInt (zone / 60) 2 ++ [ ':' ] ++ appendInt (zone % 60) 2

/-- `Time.Format(awsTimeLayout)`. -/
def Time.Format (t : Time) : GoString :=
  let abs := t.sec + t.offset
  let date := absDate (abs / 86400)
  let secs := abs % 86400
  appendInt date.1 4 ++ [ '-' ] ++ appendInt date.2.1 2 ++ [ '-' ] ++ appendInt date.2.2 2
    ++ [ 'T' ] ++ appendInt (secs / 3600) 2 ++ [ ':' ] ++ appendInt (secs % 3600 / 60) 2
    ++ [ ':' ] ++ appendInt (secs % 60) 2 ++ formatZone t.offset

/-! ### Parsing with `awsTimeLayout` -/

/-- The error value of a failed `time.Parse`. -/
def parseError (what : String) : GoError := .lib ("parsing time: " ++ what)

/-- `time.isDigit` on one byte. -/
def isDigit (c : Char) : Bool := decide ('0' ≤ c) && decide (c ≤ '9')

/-- The value `c - '0'` of a digit. -/
def digitVal (c : Char) : Int := (c.toNat : Int) - 48

/-- `time.getnum`: a number of one or two digits; exactly two when `fixed`. -/
def getnum (s : GoString) (fixed : Bool) : Except GoError (Int × GoString) :=
  match s with
  | [] => .error (parseError "bad value")
  | [c0] =>
    if isDigit c0 ∧ fixed = false then .ok (digitVal c0, []) else .error (parseError "bad value")
  | c0 :: c1 :: rest =>
    if isDigit c0 then
      if isDigit c1 then .ok (digitVal c0 * 10 + digitVal c1, rest)
      else if fixed then .error (parseError "bad value")
      else .ok (digitVal c0, c1 :: rest)
    else .error (parseError "bad value")

/-- The stdLongYear element of `time.Parse`: exactly four digits. -/
def parseLongYear (value : GoString) : Except GoError (Int × GoString) :=
  match value with
  | c0 :: c1 :: c2 :: c3 :: rest =>
    if isDigit c0 ∧ isDigit c1 ∧ isDigit c2 ∧ isDigit c3 then
      .ok (digitVal c0 * 1000 + digitVal c1 * 100 + digitVal c2 * 10 + digitVal c3, rest)
    else .error (parseError "bad year")
  | _ => .error (parseError "bad year")

/-- `time.skip` for a layout text of one character other than a blank. -/
def skip (value : GoString) (c : Char) : Except GoError GoString :=
  match value with
  | [] => .error (parseError "bad value")
  | v :: rest => if v = c then .ok rest else .error (parseError "bad value")

/-- Value of a run of decimal digits. -/
def digitsToNat (ds : GoString) : Nat :=
  ds.foldl (fun acc c => acc * 10 + (c.toNat - 48)) 0

/-- A fractional second in the input that the layout does not mention, as `time.Parse`
accepts it after the seconds: a comma or period followed by digits, of which the
first nine count (`time.parseNanoseconds`). -/
def parseFraction (value : GoString) : Nat × GoString :=
  match value with
  | sep :: d :: rest =>
    if (sep = '.' ∨ sep = ',') ∧ isDigit d then
      let kept := ((d :: rest).takeWhile isDigit).take 9
      (digitsToNat kept * 10 ^ (9 - kept.length), (d :: rest).dropWhile isDigit)
    else (0, value)
  | _ => (0, value)

/-- The stdNumColonTZ element of `time.Parse`: sign, two digits, colon, two digits.  The
zone hour may not exceed 24 and the zone minute may not exceed 60 (the range test of
current Go releases; older releases accept any two digits). -/
def parseZone (value : GoString) : Except GoError (Int × GoString) :=
  match value with
  | sign :: h0 :: h1 :: colon :: m0 :: m1 :: rest =>
    if colon ≠ ':' then .error (parseError "bad zone")
    else
      match getnum [h0, h1] true with
      | .error e => .error e
      | .ok (hr, _) =>
        match getnum [m0, m1] true with
        | .error e => .error e
        | .ok (mm, _) =>
          if 24 < hr then .error (parseError "time zone offset hour out of range")
          else if 60 < mm then .error (parseError "time zone offset minute out of range")
          else if sign = '+' then .ok ((hr * 60 + mm) * 60, rest)
          else if sign = '-' then .ok (-((hr * 60 + mm) * 60), rest)
          else .error (parseError "bad zone")
  | _ => .error (parseError "bad zone")

/-- `time.Parse(awsTimeLayout, value)`. -/
def Parse (value : GoString) : Except GoError Time :=
  match parseLongYear value with
  | .error e => .error e
  | .ok (year, value) =>
  match skip value '-' with
  | .error e => .error e
  | .ok value =>
  match getnum value true with
  | .error e => .error e
  | .ok (month, value) =>
  if month ≤ 0 ∨ 12 < month then .error (parseError "month out of range") else
  match skip value '-' with
  | .error e => .error e
  | .ok value =>
  match getnum value true with
  | .error e => .error e
  | .ok (day, value) =>
  match skip value 'T' with
  | .error e => .error e
  | .ok value =>
  match getnum value false with
  | .error e => .error e
  | .ok (hour, value) =>
  if hour < 0 ∨ 24 ≤ hour then .error (parseError "hour out of range") else
  match skip value ':' with
  | .error e => .error e
  | .ok value =>
  match getnum value true with
  | .error e => .error e
  | .ok (min, value) =>
  if min < 0 ∨ 60 ≤ min then .error (parseError "minute out of range") else
  match skip value ':' with
  | .error e => .error e
  | .ok value =>
  match getnum value true with
  | .error e => .error e
  | .ok (sec, value) =>
  if sec < 0 ∨ 60 ≤ sec then .error (parseError "second out of range") else
  match parseFraction value with
  | (nsec, value) =>
  match parseZone value with
  | .error e => .error e
  | .ok (zoneOffset, value) =>
  if value ≠ [] then .error (parseError "extra text") else
  if day < 1 ∨ daysIn month year < day then .error (parseError "day out of range") else
  let t := Date year month day hour min sec nsec
  .ok { sec := t.sec - zoneOffset, nsec := t.nsec, offset := zoneOffset }

/-- `strings.Trim(s, cutset)`: drops the leading and the trailing characters that are in
`cutset`. -/
def Trim (s cutset : GoString) : GoString :=
  ((s.dropWhile (fun c => decide (c ∈ cutset))).reverse.dropWhile
    (fun c => decide (c ∈ cutset))).reverse

/-! ## `awsTime` -/

/-- `awsTime.MarshalJSON`: the formatted time between double quotes; the error is nil. -/
def awsTime.MarshalJSON (t : Time) : Except GoError GoString :=
  .ok ([quote] ++ t.Format ++ [quote])

/-- `awsTime.UnmarshalJSON`: trims double quotes and parses; on success the result is the
new value of the receiver. -/
def awsTime.UnmarshalJSON (data : GoString) : Except GoError Time :=
  let str := Trim data [quote]
  match Parse str with
  | .error err => .error err
  | .ok parsed => .ok parsed

/-! ## The session token -/

/-- The `Credentials` member of `SessionToken`. -/
structure Credentials where
  AccessKeyId : GoString
  SecretAccessKey : GoString
  SessionToken : GoString
  Expiration : Time
deriving DecidableEq, Repr

/-- The struct `SessionToken`. -/
structure SessionToken where
  Credentials : Credentials
deriving DecidableEq, Repr

/-- `SessionToken.IsExpired`, with the value of `time.Now()` as second argument. -/
def SessionToken.IsExpired (t : SessionToken) (now : Time) : Bool :=
  t.Credentials.Expiration.Before now

/-- `fmt.Sprintf("%s=%s", name, value)`. -/
def sprintfAssign (name value : GoString) : GoString :=
  name ++ "=".toList ++ value

/-- `SessionToken.Env`, with the value of `os.Environ()` as second argument. -/
def SessionToken.Env (t : SessionToken) (environ : List GoString) : List GoString :=
  let env := environ
  let env := env ++ [sprintfAssign "AWS_ACCESS_KEY_ID".toList t.Credentials.AccessKeyId]
  let env := env ++ [sprintfAssign "AWS_SECRET_ACCESS_KEY".toList t.Credentials.SecretAccessKey]
  let env := env ++ [sprintfAssign "AWS_SESSION_TOKEN".toList t.Credentials.SessionToken]
  env

/-- The single quote character, code point 39. -/
def apostrophe : Char := Char.ofNat 39

/-- The newline character, code point 10. -/
def newline : Char := Char.ofNat 10

/-- `SessionToken.ExportEnvs`: three `export` lines joined by newlines. -/
def SessionToken.ExportEnvs (t : SessionToken) : GoString :=
  "export AWS_ACCESS_KEY_ID=".toList ++ [apostrophe] ++ t.Credentials.AccessKeyId ++ [apostrophe]
    ++ [newline]
    ++ "export AWS_SECRET_ACCESS_KEY=".toList ++ [apostrophe] ++ t.Credentials.SecretAccessKey
    ++ [apostrophe] ++ [newline]
    ++ "export AWS_SESSION_TOKEN=".toList ++ [apostrophe] ++ t.Credentials.SessionToken
    ++ [apostrophe]

/-! ## The outside world -/

/-- How an external command ended (`exec.Cmd.Run`). -/
inductive ProcOutcome where
  /-- The command could not be started (executable not found, fork failure). -/
  | notStarted (msg : String)
  /-- The command ran and exited with `status`, having written `stdout`. -/
  | exited (status : Nat) (stdout : GoString)
  /-- The command ran and was ended by a signal. -/
  | signaled (stdout : GoString)
deriving DecidableEq, Repr

/-- One element of the anonymous struct slice `MFADevices` in `getMFASerialNumber`. -/
structure MFADevice where
  SerialNumber : GoString
deriving DecidableEq, Repr

/-- What the generic part of `encoding/json` finds in, or writes to, a document of the
shape of `SessionToken`: the three string members, and the raw JSON text of every
`Expiration` member in document order (none when the member is missing).  The raw
texts are what `encoding/json` hands to `awsTime.UnmarshalJSON`, and what it takes from
`awsTime.MarshalJSON`. -/
structure TokenDocument where
  AccessKeyId : GoString
  SecretAccessKey : GoString
  SessionToken : GoString
  Expiration : List GoString
deriving DecidableEq, Repr

/-- Effects of the program on the outside, in the order they happen. -/
inductive Event where
  /-- Text written to standard output. -/
  | stdout (text : GoString)
  /-- One `Scanner.Scan` on standard input. -/
  | readLine
  /-- The session token file is opened for reading. -/
  | openFile
  /-- The data directory is created if missing. -/
  | mkdirAll
  /-- The session token file is created or truncated. -/
  | createFile
  /-- Bytes are written to the session token file. -/
  | writeFile (data : GoString)
  /-- The session token file is removed. -/
  | removeAll
  /-- An external command is run. -/
  | exec (argv : List GoString) (env : List GoString)
  /-- An error is printed with `log.Print`. -/
  | logPrint (err : GoError)
deriving DecidableEq, Repr

/-- What the program can change: the session token file (absent, or present with its
content), the lines of standard input not yet read, and the effects so far. -/
structure World where
  cache : Option GoString
  stdin : List GoString
  trace : List Event
deriving DecidableEq, Repr

/-- Records one effect. -/
def World.emit (w : World) (ev : Event) : World :=
  { w with trace := w.trace ++ [ev] }

/-- What the program reads from outside: process arguments and environment, the clock,
faults of the operating system, the behaviour of external commands, and the generic
part of `encoding/json`. -/
structure Sys where
  /-- The slice `os.Args`, program name first. -/
  args : List GoString
  /-- The value of `os.Environ()`. -/
  environ : List GoString
  /-- The function `os.Getenv`. -/
  getenv : GoString → GoString
  /-- The value of `time.Now()`. -/
  now : Time
  /-- Reading standard input fails (`Scanner.Err()` is not nil). -/
  stdinErr : Option String
  /-- Opening the session token file fails for another reason than its absence. -/
  openErr : Option String
  /-- The call `os.MkdirAll` on the data directory fails. -/
  mkdirErr : Option String
  /-- The call `os.Create` on the session token file fails. -/
  createErr : Option String
  /-- Writing the session token file fails after the given number of bytes. -/
  writeErr : Option (String × Nat)
  /-- The operating system refuses to remove the session token file, for another reason
  than its absence (no permission, a path component that is not a directory); the fault
  may depend on the world in which the removal is attempted. -/
  removeErr : World → Option String
  /-- Outcome of running the command `argv` with environment `env`. -/
  run : (argv : List GoString) → (env : List GoString) → ProcOutcome
  /-- Decoding a document into a `SessionToken`, up to the calls of
  `awsTime.UnmarshalJSON`; `stream` tells `json.NewDecoder(f).Decode` (true) from
  `json.Unmarshal` (false). -/
  jsonDecodeToken : (stream : Bool) → GoString → Except GoError TokenDocument
  /-- Encoding a `SessionToken` with `json.NewEncoder(f).Encode`, given the text that
  `awsTime.MarshalJSON` returned. -/
  jsonEncodeToken : TokenDocument → GoString
  /-- Decoding the output of `aws iam list-mfa-devices` into the list `MFADevices`. -/
  jsonDecodeDevices : GoString → Except GoError (List MFADevice)

/-- The error and collected output of `exec.Cmd.Run`: nil for exit status 0, an
`*exec.ExitError` for another exit status or a signal (whose `ExitCode()` is -1), another
error when the command did not start. -/
def cmdResult (sys : Sys) (argv env : List GoString) : Except GoError GoString :=
  match sys.run argv env with
  | .notStarted msg => .error (.lib msg)
  | .exited 0 out => .ok out
  | .exited (status + 1) _ => .error (.exitError ((status : Int) + 1))
  | .signaled _ => .error (.exitError (-1))

/-- `exec.Cmd.Run` of the command `argv` with environment `env`. -/
def cmdRun (sys : Sys) (argv env : List GoString) (w : World) : Except GoError GoString × World :=
  (cmdResult sys argv env, w.emit (.exec argv env))

/-- `os.Open(sessionTokenFile())` followed by reading the file. -/
def osOpen (sys : Sys) (w : World) : Except GoError GoString × World :=
  let w := w.emit .openFile
  match sys.openErr with
  | some msg => (.error (.lib msg), w)
  | none =>
    match w.cache with
    | none => (.error .notExist, w)
    | some data => (.ok data, w)

/-- `os.MkdirAll(dataDir, 0700)`. -/
def osMkdirAll (sys : Sys) (w : World) : Except GoError Unit × World :=
  let w := w.emit .mkdirAll
  match sys.mkdirErr with
  | some msg => (.error (.lib msg), w)
  | none => (.ok (), w)

/-- `os.Create(sessionTokenFile())`: the file exists and is empty afterwards. -/
def osCreate (sys : Sys) (w : World) : Except GoError Unit × World :=
  let w := w.emit .createFile
  match sys.createErr with
  | some msg => (.error (.lib msg), w)
  | none => (.ok (), { w with cache := some [] })

/-- Writing `data` to the file just created. -/
def osWrite (sys : Sys) (data : GoString) (w : World) : Except GoError Unit × World :=
  let w := w.emit (.writeFile data)
  match sys.writeErr with
  | some (msg, n) => (.error (.lib msg), { w with cache := some (data.take n) })
  | none => (.ok (), { w with cache := some data })

/-- `os.Remove(sessionTokenFile())`: fails when the operating system refuses, and with
an error for which `errors.Is(err, fs.ErrNotExist)` holds when the file does not exist. -/
def osRemove (sys : Sys) (w : World) : Except GoError Unit × World :=
  match sys.removeErr w with
  | some msg => (.error (.lib msg), w)
  | none =>
    match w.cache with
    | none => (.error .notExist, w)
    | some _ => (.ok (), { w with cache := none })

/-- `os.RemoveAll(sessionTokenFile())`: it tries `os.Remove` and is done when that
returns nil or an error of absence; the session token file is not a directory, so any
other error is the one returned. -/
def osRemoveAll (sys : Sys) (w : World) : Except GoError Unit × World :=
  let w := w.emit .removeAll
  match osRemove sys w with
  | (.ok (), w) => (.ok (), w)
  | (.error err, w) => if err.isNotExist then (.ok (), w) else (.error err, w)

/-- `bufio.NewScanner(os.Stdin)`, `Scan()`, `Err()`, `Text()`: the next line, or the empty
string at end of input. -/
def scanLine (sys : Sys) (w : World) : Except GoError GoString × World :=
  let w := w.emit .readLine
  match sys.stdinErr with
  | some msg => (.error (.lib msg), w)
  | none =>
    match w.stdin with
    | [] => (.ok [], w)
    | line :: rest => (.ok line, { w with stdin := rest })

/-! ## Encoding and decoding the session token -/

/-- The calls of `awsTime.UnmarshalJSON` that decoding makes, one for each `Expiration`
member in document order, on a field that starts as `t`; the first error ends decoding. -/
def unmarshalExpirations : List GoString → Time → Except GoError Time
  | [], t => .ok t
  | raw :: rest, _ =>
    match awsTime.UnmarshalJSON raw with
    | .error err => .error err
    | .ok parsed => unmarshalExpirations rest parsed

/-- Decoding `data` into a zero `SessionToken` (`json.NewDecoder(f).Decode(&st)` when
`stream`, else `json.Unmarshal(data, &st)`). -/
def decodeSessionToken (sys : Sys) (stream : Bool) (data : GoString) :
    Except GoError SessionToken :=
  match sys.jsonDecodeToken stream data with
  | .error err => .error err
  | .ok doc =>
    match unmarshalExpirations doc.Expiration Time.zero with
    | .error err => .error err
    | .ok expiration =>
      .ok { Credentials :=
        { AccessKeyId := doc.AccessKeyId
          SecretAccessKey := doc.SecretAccessKey
          SessionToken := doc.SessionToken
          Expiration := expiration } }

/-- The bytes that `json.NewEncoder(f).Encode(&st)` writes. -/
def encodeSessionToken (sys : Sys) (st : SessionToken) : Except GoError GoString :=
  match awsTime.MarshalJSON st.Credentials.Expiration with
  | .error err => .error err
  | .ok raw =>
    .ok (sys.jsonEncodeToken
      { AccessKeyId := st.Credentials.AccessKeyId
        SecretAccessKey := st.Credentials.SecretAccessKey
        SessionToken := st.Credentials.SessionToken
        Expiration := [raw] })

/-! ## The functions of `main.go` -/

/-- `awsProfile`. -/
def awsProfile (sys : Sys) : GoString :=
  let profile := sys.getenv "MAWS_PROFILE".toList
  if profile = [] then "default".toList else profile

/-- `deleteSessionToken`. -/
def deleteSessionToken (sys : Sys) (w : World) : Except GoError Unit × World :=
  osRemoveAll sys w

/-- `persistSessionToken`. -/
def persistSessionToken (sys : Sys) (st : SessionToken) (w : World) :
    Except GoError Unit × World :=
  match osMkdirAll sys w with
  | (.error err, w) => (.error (.wrap "create data dir" err), w)
  | (.ok (), w) =>
    match osCreate sys w with
    | (.error err, w) => (.error (.wrap "create session token file" err), w)
    | (.ok (), w) =>
      match encodeSessionToken sys st with
      | .error err => (.error (.wrap "write session token" err), w)
      | .ok data =>
        match osWrite sys data w with
        | (.error err, w) => (.error (.wrap "write session token" err), w)
        | (.ok (), w) => (.ok (), w)

/-- The arguments of the device-discovery command. -/
def listMFADevicesArgv (sys : Sys) : List GoString :=
  [awsCliCmd, "--profile".toList, awsProfile sys, "iam".toList, "list-mfa-devices".toList,
    "--output".toList, "json".toList]

/-- The arguments of the code-exchange command. -/
def getSessionTokenArgv (sys : Sys) (serialNumber tokenCode : GoString) : List GoString :=
  [awsCliCmd, "--profile".toList, awsProfile sys, "sts".toList, "get-session-token".toList,
    "--serial-number".toList, serialNumber, "--token-code".toList, tokenCode]

/-- `getMFASerialNumber`. -/
def getMFASerialNumber (sys : Sys) (w : World) : Except GoError GoString × World :=
  match cmdRun sys (listMFADevicesArgv sys) sys.environ w with
  | (.error err, w) => (.error (.wrap "execute get-caller-identity command" err), w)
  | (.ok out, w) =>
    match sys.jsonDecodeDevices out with
    | .error err => (.error (.wrap "decode caller identity" err), w)
    | .ok devices =>
      match devices with
      | [] => (.error (.errorf "no MFA devices configured"), w)
      | first :: _ => (.ok first.SerialNumber, w)

/-- `promptMFA`. -/
def promptMFA (sys : Sys) (w : World) : Except GoError SessionToken × World :=
  let w := w.emit (.stdout "OTP: ".toList)
  match scanLine sys w with
  | (.error err, w) => (.error (.wrap "read OTP from stint" err), w)
  | (.ok tokenCode, w) =>
    match getMFASerialNumber sys w with
    | (.error err, w) => (.error (.wrap "get MFA serial number" err), w)
    | (.ok serialNumber, w) =>
      match cmdRun sys (getSessionTokenArgv sys serialNumber tokenCode) sys.environ w with
      | (.error _, w) => (.error (.errorf "get-session-token"), w)
      | (.ok out, w) =>
        match decodeSessionToken sys false out with
        | .error err => (.error (.wrap "decode session token" err), w)
        | .ok st =>
          match persistSessionToken sys st w with
          | (.error err, w) => (.error (.wrap "persist session token" err), w)
          | (.ok (), w) => (.ok st, w)

/-- `loadSessionToken`. -/
def loadSessionToken (sys : Sys) (w : World) : Except GoError SessionToken × World :=
  match osOpen sys w with
  | (.error err, w) =>
    if err.isNotExist then promptMFA sys w
    else (.error (.wrap "open session token file" err), w)
  | (.ok data, w) =>
    match decodeSessionToken sys true data with
    | .error err => (.error (.wrap "decode session token file" err), w)
    | .ok st =>
      if st.IsExpired sys.now then promptMFA sys w
      else (.ok st, w)

/-- `runAWSCli`: the wrapped command with `os.Args[1:]` and the environment `st.Env()`. -/
def runAWSCli (sys : Sys) (st : SessionToken) (w : World) : Except GoError Unit × World :=
  match cmdRun sys (awsCliCmd :: sys.args.drop 1) (st.Env sys.environ) w with
  | (.error err, w) => (.error (.wrap "run AWS CLI" err), w)
  | (.ok _, w) => (.ok (), w)

/-- `main`: the first component is the exit status of the process, the argument of
`os.Exit`, or 0 when `main` returns. -/
def main (sys : Sys) (w : World) : Int × World :=
  if sys.args.length = 2 ∧ sys.args[1]? = some "delete-session-token".toList then
    match deleteSessionToken sys w with
    | (.error err, w) => (1, w.emit (.logPrint err))
    | (.ok (), w) => (0, w)
  else
    match loadSessionToken sys w with
    | (.error err, w) => (1, w.emit (.logPrint err))
    | (.ok st, w) =>
      if sys.args.length = 2 ∧ sys.args[1]? = some "export-envs".toList then
        (0, w.emit (.stdout (st.ExportEnvs ++ [newline])))
      else
        match runAWSCli sys st w with
        | (.error err, w) =>
          match err.asExitError with
          | some exitCode => (exitCode, w)
          | none => (1, w.emit (.logPrint err))
        | (.ok (), w) => (0, w)

deriving instance DecidableEq for Except

/-! ## Notions used in the statements -/

/-- The effects that a run from world `w` to world `w1` added. -/
def effectsSince (w w1 : World) : List Event := w1.trace.drop w.trace.length

/-- The event is a run of the device-discovery command `aws ... iam list-mfa-devices`. -/
def Event.isDeviceDiscovery : Event → Bool
  | .exec (_ :: _ :: _ :: service :: operation :: _) _ =>
    decide (service = "iam".toList ∧ operation = "list-mfa-devices".toList)
  | _ => false

/-- The event is a run of the code-exchange command `aws ... sts get-session-token`. -/
def Event.isCodeExchange : Event → Bool
  | .exec (_ :: _ :: _ :: service :: operation :: _) _ =>
    decide (service = "sts".toList ∧ operation = "get-session-token".toList)
  | _ => false

/-- The event is the OTP prompt or the read of the one-time code. -/
def Event.isOtpInput : Event → Bool
  | .stdout _ => true
  | .readLine => true
  | _ => false

/-- Name and value of an environment entry `NAME=value`, cut at the first equals sign. -/
def splitEntry (entry : GoString) : Option (GoString × GoString) :=
  match entry.dropWhile (fun c => decide (c ≠ '=')) with
  | [] => none
  | _ :: value => some (entry.takeWhile (fun c => decide (c ≠ '=')), value)

/-- Lookup of a variable in an environment where the last entry for a name wins. -/
def lookupEnv (env : List GoString) (name : GoString) : Option GoString :=
  env.foldl (fun found entry =>
    match splitEntry entry with
    | some (n, v) => if n = name then some v else found
    | none => found) none

/-! ## A concrete system, for evaluating the functions

Its JSON codec is a stand-in: a token document is written as its members on separate
lines, a device list as one serial number per line. -/

/-- Members of a token document, one per line. -/
def sampleEncode (doc : TokenDocument) : GoString :=
  doc.AccessKeyId ++ [newline] ++ doc.SecretAccessKey ++ [newline] ++ doc.SessionToken
    ++ (doc.Expiration.map (fun raw => newline :: raw)).flatten

/-- Reads back what `sampleEncode` writes. -/
def sampleDecode (data : GoString) : Except GoError TokenDocument :=
  match data.splitOn newline with
  | a :: s :: t :: rest =>
    .ok { AccessKeyId := a, SecretAccessKey := s, SessionToken := t, Expiration := rest }
  | _ => .error (.lib "unexpected end of JSON input")

/-- The expiration written by the sample commands: 2023-11-14T22:13:20Z. -/
def sampleExpiration : Time := { sec := 1700000000, nsec := 0, offset := 0 }

/-- The token that the sample code-exchange command issues. -/
def sampleToken : SessionToken :=
  { Credentials :=
    { AccessKeyId := "ASIAEXAMPLE".toList
      SecretAccessKey := "secret".toList
      SessionToken := "token".toList
      Expiration := sampleExpiration } }

/-- The document of `sampleToken`. -/
def sampleDocument : TokenDocument :=
  { AccessKeyId := "ASIAEXAMPLE".toList
    SecretAccessKey := "secret".toList
    SessionToken := "token".toList
    Expiration := [[quote] ++ "2023-11-14T22:13:20+00:00".toList ++ [quote]] }

/-- A system without faults whose device-discovery, code-exchange and wrapped commands
end as given. -/
def sampleSysWith (discovery exchange wrapped : ProcOutcome) : Sys :=
  { args := ["maws".toList, "s3".toList, "ls".toList]
    environ := ["HOME=/root".toList, "AWS_SESSION_TOKEN=stale".toList]
    getenv := fun _ => []
    now := { sec := 1699990000, nsec := 0, offset := 0 }
    stdinErr := none
    openErr := none
    mkdirErr := none
    createErr := none
    writeErr := none
    removeErr := fun _ => none
    run := fun argv _ =>
      match argv with
      | _ :: _ :: _ :: service :: _ =>
        if service = "iam".toList then discovery
        else if service = "sts".toList then exchange
        else wrapped
      | _ => wrapped
    jsonDecodeToken := fun _ data => sampleDecode data
    jsonEncodeToken := sampleEncode
    jsonDecodeDevices := fun data =>
      .ok (((data.splitOn newline).filter (fun l => decide (l ≠ []))).map MFADevice.mk) }

/-- A system without faults: one MFA device, a code-exchange command that issues
`sampleToken`, and a wrapped command that exits with status 7. -/
def sampleSys : Sys :=
  sampleSysWith (.exited 0 "arn:aws:iam::1:mfa/alice".toList)
    (.exited 0 (sampleEncode sampleDocument)) (.exited 7 [])

/-- A world with no cache file, the line `123456` on standard input and no effects yet. -/
def sampleWorld : World :=
  { cache := none, stdin := ["123456".toList], trace := [] }

/-- A world whose cache file holds `sampleToken`. -/
def cachedWorld : World :=
  { cache := some (sampleEncode sampleDocument), stdin := ["123456".toList], trace := [] }

/-! ## Calendar arithmetic -/

theorem isLeap_iff (y : Int) :
    isLeap y = true ↔ (y % 4 = 0 ∧ (y % 100 ≠ 0 ∨ y % 400 = 0)) := by
  simp [isLeap]

theorem yearOfDays_arith (d n400 r n100 r1 n4 r2 n1 : Int)
    (hn400 : n400 = d / 146097) (hr : r = d % 146097)
    (hn100 : n100 = min (r / 36524) 3) (hr1 : r1 = r - 36524 * n100)
    (hn4 : n4 = r1 / 1461) (hr2 : r2 = r1 % 1461)
    (hn1 : n1 = min (r2 / 365) 3) :
    let y := 400 * n400 + 100 * n100 + 4 * n4 + n1
    let yday := r2 - 365 * n1
    365 * y + y / 4 - y / 100 + y / 400 + yday = d ∧ 0 ≤ yday ∧
      (yday < 365 ∨ (yday = 365 ∧ (y + 1) % 4 = 0 ∧ ((y + 1) % 100 ≠ 0 ∨ (y + 1) % 400 = 0))) := by
  intro y yday
  have b100 : 0 ≤ n100 ∧ n100 ≤ 3 := by omega
  have br1 : 0 ≤ r1 ∧ r1 ≤ 36524 := by omega
  have br1' : n100 < 3 → r1 < 36524 := by omega
  have b4 : 0 ≤ n4 ∧ n4 ≤ 24 := by omega
  have b4' : n100 < 3 → n4 = 24 → r2 < 1460 := by omega
  have br2 : 0 ≤ r2 ∧ r2 ≤ 1460 := by omega
  have b1 : 0 ≤ n1 ∧ n1 ≤ 3 := by omega
  have hy4 : y / 4 = 100 * n400 + 25 * n100 + n4 := by omega
  have hy100 : y / 100 = 4 * n400 + n100 := by omega
  have hy400 : y / 400 = n400 := by omega
  refine ⟨by omega, by omega, ?_⟩
  by_cases h : yday < 365
  · exact Or.inl h
  · right
    have : n1 = 3 := by omega
    refine ⟨by omega, by omega, ?_⟩
    by_cases h3 : n100 = 3
    · by_cases h24 : n4 = 24
      · right; omega
      · left; omega
    · left; omega

theorem yearOfDays_spec (days : Int) :
    daysSinceEpoch (yearOfDays days).1 + (yearOfDays days).2 = days ∧
    0 ≤ (yearOfDays days).2 ∧
    ((yearOfDays days).2 < 365 ∨ ((yearOfDays days).2 = 365 ∧ isLeap (yearOfDays days).1 = true)) := by
  have h := yearOfDays_arith (days + 719162) _ _ _ _ _ _ _ rfl rfl rfl rfl rfl rfl rfl
  simp only [isLeap_iff]
  simp only [yearOfDays, daysSinceEpoch]
  simp only at h
  omega

theorem daysBefore_vals : daysBefore 1 = 0 ∧ daysBefore 2 = 31 ∧ daysBefore 3 = 59 ∧
    daysBefore 4 = 90 ∧ daysBefore 5 = 120 ∧ daysBefore 6 = 151 ∧ daysBefore 7 = 181 ∧
    daysBefore 8 = 212 ∧ daysBefore 9 = 243 ∧ daysBefore 10 = 273 ∧ daysBefore 11 = 304 ∧
    daysBefore 12 = 334 ∧ daysBefore 13 = 365 := by decide

theorem monthDayCommon_spec (day : Int) (h0 : 0 ≤ day) (h1 : day < 365) :
    1 ≤ (monthDayCommon day).1 ∧ (monthDayCommon day).1 ≤ 12 ∧ 1 ≤ (monthDayCommon day).2 ∧
    (monthDayCommon day).2 ≤ daysBefore ((monthDayCommon day).1 + 1) - daysBefore (monthDayCommon day).1 ∧
    daysBefore (monthDayCommon day).1 + ((monthDayCommon day).2 - 1) = day := by
  have hb : 0 ≤ day / 31 ∧ day / 31 ≤ 11 := by omega
  have hq : 31 * (day / 31) ≤ day ∧ day < 31 * (day / 31) + 31 := by omega
  unfold monthDayCommon
  generalize day / 31 = m0 at *
  obtain ⟨l, u⟩ := hb
  obtain ⟨v1, v2, v3, v4, v5, v6, v7, v8, v9, v10, v11, v12, v13⟩ := daysBefore_vals
  interval_cases m0 <;> norm_num only [v1, v2, v3, v4, v5, v6, v7, v8, v9, v10, v11, v12, v13] <;>
    split_ifs <;> norm_num only [v1, v2, v3, v4, v5, v6, v7, v8, v9, v10, v11, v12, v13] <;>
    refine ⟨?_, ?_, ?_, ?_, ?_⟩ <;> first | trivial | omega

theorem monthDay_spec (leap : Bool) (yday : Int) (h0 : 0 ≤ yday)
    (h1 : yday < 365 ∨ (yday = 365 ∧ leap = true)) :
    1 ≤ (monthDay leap yday).1 ∧ (monthDay leap yday).1 ≤ 12 ∧
    1 ≤ (monthDay leap yday).2 ∧
    (monthDay leap yday).2 ≤
      (if (monthDay leap yday).1 = 2 then (if leap then 29 else 28)
       else if (monthDay leap yday).1 = 4 ∨ (monthDay leap yday).1 = 6 ∨
          (monthDay leap yday).1 = 9 ∨ (monthDay leap yday).1 = 11 then 30 else 31) ∧
    daysBefore (monthDay leap yday).1 + (if leap = true ∧ 3 ≤ (monthDay leap yday).1 then 1 else 0)
      + ((monthDay leap yday).2 - 1) = yday := by
  obtain ⟨v1, v2, v3, v4, v5, v6, v7, v8, v9, v10, v11, v12, v13⟩ := daysBefore_vals
  have key : ∀ day : Int, 0 ≤ day → day < 365 →
      ∀ m d : Int, monthDayCommon day = (m, d) →
      1 ≤ m ∧ m ≤ 12 ∧ 1 ≤ d ∧ daysBefore m + (d - 1) = day ∧
      d ≤ (if m = 2 then 28 else if m = 4 ∨ m = 6 ∨ m = 9 ∨ m = 11 then 30 else 31) ∧
      (day < 59 → m < 3) ∧ (59 ≤ day → 3 ≤ m) := by
    intro day hd0 hd1 m d hmd
    obtain ⟨a1, a2, a3, a4, a5⟩ := monthDayCommon_spec day hd0 hd1
    rw [hmd] at a1 a2 a3 a4 a5
    simp only at a1 a2 a3 a4 a5
    interval_cases m <;>
      norm_num only [v1, v2, v3, v4, v5, v6, v7, v8, v9, v10, v11, v12, v13] at a4 a5 <;>
      simp <;> omega
  unfold monthDay
  by_cases hl : leap = true
  · subst hl
    by_cases h59 : yday = 59
    · subst h59; simp [v2]
    · by_cases hgt : 59 < yday
      · simp only [h59, hgt, and_false, and_self, if_false, if_true, true_and]
        generalize hmd : monthDayCommon (yday - 1) = md
        obtain ⟨m, d⟩ := md
        obtain ⟨b1, b2, b3, b4, b5, b6, b7⟩ := key (yday - 1) (by omega) (by omega) m d hmd
        have : 3 ≤ m := by omega
        have h2 : ¬ m = 2 := by omega
        simp only [this, h2, if_true, if_false]
        refine ⟨b1, b2, b3, by simpa [h2] using b5, by omega⟩
      · simp only [h59, hgt, and_false, if_false, true_and]
        generalize hmd : monthDayCommon yday = md
        obtain ⟨m, d⟩ := md
        obtain ⟨b1, b2, b3, b4, b5, b6, b7⟩ := key yday (by omega) (by omega) m d hmd
        have : ¬ 3 ≤ m := by omega
        simp only [this, if_false]
        refine ⟨b1, b2, b3, ?_, by omega⟩
        revert b5; split_ifs <;> omega
  · have hl2 : leap = false := by simpa using hl
    subst hl2
    simp only [Bool.false_eq_true, false_and, if_false]
    generalize hmd : monthDayCommon yday = md
    obtain ⟨m, d⟩ := md
    obtain ⟨b1, b2, b3, b4, b5, b6, b7⟩ := key yday (by omega) (by simpa using h1) m d hmd
    refine ⟨b1, b2, b3, b5, ?_⟩
    simp only [Prod.fst, Prod.snd] at *; omega


theorem absDate_spec (days : Int) :
    1 ≤ (absDate days).2.1 ∧ (absDate days).2.1 ≤ 12 ∧ 1 ≤ (absDate days).2.2 ∧
    (absDate days).2.2 ≤ daysIn (absDate days).2.1 (absDate days).1 ∧
    (absDate days).2.2 ≤ 31 ∧
    dateToDays (absDate days).1 (absDate days).2.1 (absDate days).2.2 = days := by
  obtain ⟨hsum, hy0, hy1⟩ := yearOfDays_spec days
  obtain ⟨m1, m12, d1, dle, hday⟩ :=
    monthDay_spec (isLeap (yearOfDays days).1) (yearOfDays days).2 hy0 hy1
  simp only [absDate, daysIn, dateToDays]
  refine ⟨m1, m12, d1, dle, ?_, ?_⟩
  · revert dle; split_ifs <;> omega
  · omega

/-! ## Decimal digits -/

theorem digitChar_spec (n : Nat) (h : n < 10) :
    isDigit (Nat.digitChar n) = true ∧ digitVal (Nat.digitChar n) = n ∧
    Nat.digitChar n ≠ quote ∧ Nat.digitChar n ≠ '.' ∧ Nat.digitChar n ≠ ',' := by
  interval_cases n <;> decide

theorem toDigits_lt_ten (n : Nat) (h : n < 10) : Nat.toDigits 10 n = [Nat.digitChar n] := by
  interval_cases n <;> rfl

theorem toDigitsCore_two (f n : Nat) (ds : List Char) (h : 10 ≤ n) (h2 : n < 100) :
    Nat.toDigitsCore 10 (f + 2) n ds = Nat.digitChar (n / 10) :: Nat.digitChar (n % 10) :: ds := by
  have h1 : n / 10 ≠ 0 := by omega
  have h3 : n / 10 / 10 = 0 := by omega
  have h4 : n / 10 % 10 = n / 10 := by omega
  simp [Nat.toDigitsCore, h1, h3, h4]

theorem appendInt_two (x : Int) (h0 : 0 ≤ x) (h1 : x < 100) :
    appendInt x 2 = [Nat.digitChar (x.toNat / 10), Nat.digitChar (x.toNat % 10)] := by
  obtain ⟨n, rfl⟩ := Int.eq_ofNat_of_zero_le h0
  have hn : n < 100 := by omega
  simp only [appendInt, Int.natAbs_ofNat, Int.toNat_ofNat]
  have hneg : ¬ ((n : Int) < 0) := by omega
  simp only [hneg, if_false, List.nil_append]
  by_cases h10 : n < 10
  · rw [toDigits_lt_ten n h10]
    have : n / 10 = 0 := by omega
    have h5 : n % 10 = n := by omega
    simp [this, h5]
    rfl
  · obtain ⟨k, rfl⟩ : ∃ k, n = k + 1 := ⟨n - 1, by omega⟩
    rw [Nat.toDigits, toDigitsCore_two k (k + 1) [] (by omega) hn]
    simp

theorem toDigitsCore_step (f n : Nat) (ds : List Char) (h : 10 ≤ n) :
    Nat.toDigitsCore 10 (f + 1) n ds
      = Nat.toDigitsCore 10 f (n / 10) (Nat.digitChar (n % 10) :: ds) := by
  have h1 : n / 10 ≠ 0 := by omega
  simp [Nat.toDigitsCore, h1]

theorem toDigitsCore_last (f n : Nat) (ds : List Char) (h : n < 10) :
    Nat.toDigitsCore 10 (f + 1) n ds = Nat.digitChar n :: ds := by
  have h1 : n / 10 = 0 := by omega
  have h2 : n % 10 = n := by omega
  simp [Nat.toDigitsCore, h1, h2]

theorem appendInt_four (x : Int) (h0 : 0 ≤ x) (h1 : x < 10000) :
    appendInt x 4 = [Nat.digitChar (x.toNat / 1000), Nat.digitChar (x.toNat / 100 % 10),
      Nat.digitChar (x.toNat / 10 % 10), Nat.digitChar (x.toNat % 10)] := by
  obtain ⟨n, rfl⟩ := Int.eq_ofNat_of_zero_le h0
  have hn : n < 10000 := by omega
  simp only [appendInt, Int.natAbs_ofNat, Int.toNat_ofNat]
  have hneg : ¬ ((n : Int) < 0) := by omega
  simp only [hneg, if_false, List.nil_append]
  have z : Nat.digitChar 0 = '0' := rfl
  by_cases c1 : n < 10
  · rw [toDigits_lt_ten n c1]
    have e1 : n / 1000 = 0 := by omega
    have e2 : n / 100 % 10 = 0 := by omega
    have e3 : n / 10 % 10 = 0 := by omega
    have e4 : n % 10 = n := by omega
    simp [e1, e2, e3, e4, z, List.replicate]
  · by_cases c2 : n < 100
    · obtain ⟨k, rfl⟩ : ∃ k, n = k + 1 := ⟨n - 1, by omega⟩
      rw [Nat.toDigits, toDigitsCore_two k (k + 1) [] (by omega) c2]
      have e1 : (k + 1) / 1000 = 0 := by omega
      have e2 : (k + 1) / 100 % 10 = 0 := by omega
      have e3 : (k + 1) / 10 % 10 = (k + 1) / 10 := by omega
      simp [e1, e2, e3, z, List.replicate]
    · by_cases c3 : n < 1000
      · obtain ⟨k, rfl⟩ : ∃ k, n = k + 2 := ⟨n - 2, by omega⟩
        rw [Nat.toDigits, toDigitsCore_step _ _ _ (by omega),
          toDigitsCore_step _ _ _ (by omega), toDigitsCore_last _ _ _ (by omega)]
        have e1 : (k + 2) / 1000 = 0 := by omega
        have e2 : (k + 2) / 100 % 10 = (k + 2) / 10 / 10 := by omega
        simp [e1, e2, z, List.replicate]
      · obtain ⟨k, rfl⟩ : ∃ k, n = k + 3 := ⟨n - 3, by omega⟩
        rw [Nat.toDigits, toDigitsCore_step _ _ _ (by omega),
          toDigitsCore_step _ _ _ (by omega), toDigitsCore_step _ _ _ (by omega),
          toDigitsCore_last _ _ _ (by omega)]
        have e1 : (k + 3) / 1000 = (k + 3) / 10 / 10 / 10 := by omega
        have e2 : (k + 3) / 100 % 10 = (k + 3) / 10 / 10 % 10 := by omega
        simp [e1, e2]

/-! ## Parsing what `Format` writes -/

theorem isDigit_digitChar (n : Nat) (h : n < 10) : isDigit (Nat.digitChar n) = true :=
  (digitChar_spec n h).1

theorem digitVal_digitChar (n : Nat) (h : n < 10) : digitVal (Nat.digitChar n) = n :=
  (digitChar_spec n h).2.1

theorem Parse_digits (y3 y2 y1 y0 m1 m0 d1 d0 h1 h0 i1 i0 s1 s0 a1 a0 b1 b0 : Nat) (neg : Bool)
    (hy3 : y3 < 10) (hy2 : y2 < 10) (hy1 : y1 < 10) (hy0 : y0 < 10)
    (hm1 : m1 < 10) (hm0 : m0 < 10) (hd1 : d1 < 10) (hd0 : d0 < 10)
    (hh1 : h1 < 10) (hh0 : h0 < 10) (hi1 : i1 < 10) (hi0 : i0 < 10)
    (hs1 : s1 < 10) (hs0 : s0 < 10) (ha1 : a1 < 10) (ha0 : a0 < 10)
    (hb1 : b1 < 10) (hb0 : b0 < 10)
    (hmonth : 1 ≤ m1 * 10 + m0 ∧ m1 * 10 + m0 ≤ 12)
    (hday : (1 : Int) ≤ d1 * 10 + d0 ∧
      ((d1 : Int) * 10 + d0) ≤ daysIn ((m1 : Int) * 10 + m0) ((y3 : Int) * 1000 + y2 * 100 + y1 * 10 + y0))
    (hhour : h1 * 10 + h0 < 24) (hmin : i1 * 10 + i0 < 60) (hsec : s1 * 10 + s0 < 60)
    (hzh : a1 * 10 + a0 ≤ 24) (hzm : b1 * 10 + b0 ≤ 60) :
    Parse [Nat.digitChar y3, Nat.digitChar y2, Nat.digitChar y1, Nat.digitChar y0, '-',
      Nat.digitChar m1, Nat.digitChar m0, '-', Nat.digitChar d1, Nat.digitChar d0, 'T',
      Nat.digitChar h1, Nat.digitChar h0, ':', Nat.digitChar i1, Nat.digitChar i0, ':',
      Nat.digitChar s1, Nat.digitChar s0, (if neg then '-' else '+'),
      Nat.digitChar a1, Nat.digitChar a0, ':', Nat.digitChar b1, Nat.digitChar b0]
    = .ok { sec := dateToDays ((y3 : Int) * 1000 + y2 * 100 + y1 * 10 + y0) ((m1 : Int) * 10 + m0)
                ((d1 : Int) * 10 + d0) * 86400 + ((h1 : Int) * 10 + h0) * 3600
                + ((i1 : Int) * 10 + i0) * 60 + ((s1 : Int) * 10 + s0)
                - (if neg then -((((a1 : Int) * 10 + a0) * 60 + ((b1 : Int) * 10 + b0)) * 60)
                   else ((((a1 : Int) * 10 + a0) * 60 + ((b1 : Int) * 10 + b0)) * 60))
            nsec := 0
            offset := (if neg then -((((a1 : Int) * 10 + a0) * 60 + ((b1 : Int) * 10 + b0)) * 60)
                   else ((((a1 : Int) * 10 + a0) * 60 + ((b1 : Int) * 10 + b0)) * 60)) } := by
  have c1 : ¬ ((m1 : Int) * 10 + m0 ≤ 0 ∨ 12 < (m1 : Int) * 10 + m0) := by omega
  have c2 : ¬ ((h1 : Int) * 10 + h0 < 0 ∨ 24 ≤ (h1 : Int) * 10 + h0) := by omega
  have c3 : ¬ ((i1 : Int) * 10 + i0 < 0 ∨ 60 ≤ (i1 : Int) * 10 + i0) := by omega
  have c4 : ¬ ((s1 : Int) * 10 + s0 < 0 ∨ 60 ≤ (s1 : Int) * 10 + s0) := by omega
  have c5 : ¬ (24 < (a1 : Int) * 10 + a0) := by omega
  have c6 : ¬ (60 < (b1 : Int) * 10 + b0) := by omega
  have c7 : ¬ ((d1 : Int) * 10 + d0 < 1 ∨
      daysIn ((m1 : Int) * 10 + m0) ((y3 : Int) * 1000 + y2 * 100 + y1 * 10 + y0)
        < (d1 : Int) * 10 + d0) := by omega
  cases neg <;>
    simp [Parse, parseLongYear, skip, getnum, parseFraction, parseZone, Date,
      isDigit_digitChar, digitVal_digitChar, hy3, hy2, hy1, hy0, hm1, hm0, hd1, hd0, hh1, hh0,
      hi1, hi0, hs1, hs0, ha1, ha0, hb1, hb0, c1, c2, c3, c4, c5, c6, c7]

theorem formatZone_digits (k : Int) (hlo : -1499 ≤ k) (hhi : k ≤ 1499) :
    formatZone (60 * k) = [if decide (k < 0) then '-' else '+',
      Nat.digitChar (k.natAbs / 60 / 10), Nat.digitChar (k.natAbs / 60 % 10), ':',
      Nat.digitChar (k.natAbs % 60 / 10), Nat.digitChar (k.natAbs % 60 % 10)] := by
  have hz : Int.tdiv (60 * k) 60 = k := Int.mul_tdiv_cancel_left k (by decide)
  simp only [formatZone, hz]
  have habs : (if k < 0 then -k else k) = (k.natAbs : Int) := by split_ifs <;> omega
  rw [habs, appendInt_two _ (by omega) (by omega), appendInt_two _ (by omega) (by omega)]
  have e1 : ((k.natAbs : Int) / 60).toNat = k.natAbs / 60 := by omega
  have e2 : ((k.natAbs : Int) % 60).toNat = k.natAbs % 60 := by omega
  rw [e1, e2]
  by_cases hk : k < 0 <;> simp [hk]

theorem Format_digits (t : Time) (hy0 : 0 ≤ t.Year) (hy1 : t.Year ≤ 9999)
    (y m d s : Nat) (k : Int)
    (hdate : absDate ((t.sec + t.offset) / 86400) = ((y : Int), (m : Int), (d : Int)))
    (hs : (t.sec + t.offset) % 86400 = (s : Int))
    (hm : m < 100) (hd : d < 100)
    (hk : t.offset = 60 * k) (hlo : -1499 ≤ k) (hhi : k ≤ 1499) :
    t.Format = [Nat.digitChar (y / 1000), Nat.digitChar (y / 100 % 10),
      Nat.digitChar (y / 10 % 10), Nat.digitChar (y % 10), '-',
      Nat.digitChar (m / 10), Nat.digitChar (m % 10), '-',
      Nat.digitChar (d / 10), Nat.digitChar (d % 10), 'T',
      Nat.digitChar (s / 3600 / 10), Nat.digitChar (s / 3600 % 10), ':',
      Nat.digitChar (s % 3600 / 60 / 10), Nat.digitChar (s % 3600 / 60 % 10), ':',
      Nat.digitChar (s % 60 / 10), Nat.digitChar (s % 60 % 10),
      (if decide (k < 0) then '-' else '+'),
      Nat.digitChar (k.natAbs / 60 / 10), Nat.digitChar (k.natAbs / 60 % 10), ':',
      Nat.digitChar (k.natAbs % 60 / 10), Nat.digitChar (k.natAbs % 60 % 10)] := by
  have hyear : t.Year = (y : Int) := by simp [Time.Year, hdate]
  have hs' : s < 86400 := by omega
  simp only [Time.Format, hdate, hs]
  rw [hk, formatZone_digits k hlo hhi, appendInt_four _ (by omega) (by omega),
    appendInt_two (m : Int) (by omega) (by omega), appendInt_two (d : Int) (by omega) (by omega),
    appendInt_two ((s : Int) / 3600) (by omega) (by omega),
    appendInt_two ((s : Int) % 3600 / 60) (by omega) (by omega),
    appendInt_two ((s : Int) % 60) (by omega) (by omega)]
  have e1 : ((s : Int) / 3600).toNat = s / 3600 := by omega
  have e2 : ((s : Int) % 3600 / 60).toNat = s % 3600 / 60 := by omega
  have e3 : ((s : Int) % 60).toNat = s % 60 := by omega
  simp [e1, e2, e3]

theorem Parse_Format (t : Time) (hy0 : 0 ≤ t.Year) (hy1 : t.Year ≤ 9999)
    (hmin : t.offset % 60 = 0) (hlo : -89940 ≤ t.offset) (hhi : t.offset ≤ 89940) :
    Parse t.Format = .ok { sec := t.sec, nsec := 0, offset := t.offset } := by
  obtain ⟨m1, m12, d1, dle, d31, hdays⟩ := absDate_spec ((t.sec + t.offset) / 86400)
  have hyear : t.Year = (absDate ((t.sec + t.offset) / 86400)).1 := rfl
  generalize hdate : absDate ((t.sec + t.offset) / 86400) = date at m1 m12 d1 dle d31 hdays hyear
  obtain ⟨yi, mi, di⟩ := date
  simp only at m1 m12 d1 dle d31 hdays hyear
  obtain ⟨y, rfl⟩ := Int.eq_ofNat_of_zero_le (hyear ▸ hy0)
  obtain ⟨m, rfl⟩ := Int.eq_ofNat_of_zero_le (a := mi) (by omega)
  obtain ⟨d, rfl⟩ := Int.eq_ofNat_of_zero_le (a := di) (by omega)
  obtain ⟨s, hs⟩ := Int.eq_ofNat_of_zero_le (a := (t.sec + t.offset) % 86400) (by omega)
  obtain ⟨k, hk⟩ : ∃ k : Int, t.offset = 60 * k := ⟨t.offset / 60, by omega⟩
  have hy : y ≤ 9999 := by omega
  have hs' : s < 86400 := by omega
  have hkn : k.natAbs ≤ 1499 := by omega
  rw [Format_digits t hy0 hy1 y m d s k hdate hs (by omega) (by omega) hk (by omega) (by omega)]
  rw [Parse_digits _ _ _ _ _ _ _ _ _ _ _ _ _ _ _ _ _ _ (decide (k < 0))
    (by omega) (by omega) (by omega) (by omega) (by omega) (by omega) (by omega) (by omega)
    (by omega) (by omega) (by omega) (by omega) (by omega) (by omega) (by omega) (by omega)
    (by omega) (by omega) (by omega) ?_ (by omega) (by omega) (by omega) (by omega) (by omega)]
  · have ey : ((y / 1000 : Nat) : Int) * 1000 + ((y / 100 % 10 : Nat) : Int) * 100
        + ((y / 10 % 10 : Nat) : Int) * 10 + ((y % 10 : Nat) : Int) = y := by omega
    have em : ((m / 10 : Nat) : Int) * 10 + ((m % 10 : Nat) : Int) = m := by omega
    have ed : ((d / 10 : Nat) : Int) * 10 + ((d % 10 : Nat) : Int) = d := by omega
    rw [ey, em, ed, hdays]
    have ezv : ((((k.natAbs / 60 / 10 : Nat) : Int) * 10 + ((k.natAbs / 60 % 10 : Nat) : Int)) * 60
        + (((k.natAbs % 60 / 10 : Nat) : Int) * 10 + ((k.natAbs % 60 % 10 : Nat) : Int))) * 60
        = 60 * (k.natAbs : Int) := by omega
    rw [ezv]
    have ez : (if decide (k < 0) = true then -(60 * (k.natAbs : Int)) else 60 * (k.natAbs : Int))
        = t.offset := by
      by_cases hneg : k < 0 <;>
        simp only [hneg, decide_True, decide_False, if_true, if_false, Bool.false_eq_true] <;>
        omega
    rw [ez]
    have esec : (t.sec + t.offset) / 86400 * 86400
        + (((s / 3600 / 10 : Nat) : Int) * 10 + ((s / 3600 % 10 : Nat) : Int)) * 3600
        + (((s % 3600 / 60 / 10 : Nat) : Int) * 10 + ((s % 3600 / 60 % 10 : Nat) : Int)) * 60
        + (((s % 60 / 10 : Nat) : Int) * 10 + ((s % 60 % 10 : Nat) : Int)) - t.offset = t.sec := by
      omega
    rw [esec]
  · have ey : ((y / 1000 : Nat) : Int) * 1000 + ((y / 100 % 10 : Nat) : Int) * 100
        + ((y / 10 % 10 : Nat) : Int) * 10 + ((y % 10 : Nat) : Int) = y := by omega
    have em : ((m / 10 : Nat) : Int) * 10 + ((m % 10 : Nat) : Int) = m := by omega
    have ed : ((d / 10 : Nat) : Int) * 10 + ((d % 10 : Nat) : Int) = d := by omega
    rw [ey, em, ed]
    exact ⟨by omega, dle⟩

/-! ## `awsTime`: marshalling and unmarshalling -/

theorem Trim_quoted (s : GoString) (hne : s ≠ []) (hhead : s.head? ≠ some quote)
    (hlast : s.getLast? ≠ some quote) :
    Trim ([quote] ++ s ++ [quote]) [quote] = s := by
  obtain ⟨a, r, rfl⟩ := List.exists_cons_of_ne_nil hne
  have ha : a ≠ quote := by simpa using hhead
  have e1 : Trim ([quote] ++ (a :: r) ++ [quote]) [quote]
      = ((a :: r).reverse.dropWhile (fun c => decide (c ∈ [quote]))).reverse := by
    simp [Trim, List.dropWhile, ha]
  rw [e1]
  rcases List.eq_nil_or_concat (a :: r) with h | ⟨mid, b, h⟩
  · simp at h
  · rw [List.concat_eq_append] at h
    rw [h] at hlast ⊢
    have hb : b ≠ quote := by simpa using hlast
    simp [List.dropWhile, hb]

theorem UnmarshalJSON_MarshalJSON (t : Time) (hy0 : 0 ≤ t.Year) (hy1 : t.Year ≤ 9999)
    (hmin : t.offset % 60 = 0) (hlo : -89940 ≤ t.offset) (hhi : t.offset ≤ 89940) :
    awsTime.UnmarshalJSON ([quote] ++ t.Format ++ [quote])
      = .ok { sec := t.sec, nsec := 0, offset := t.offset } := by
  have hP := Parse_Format t hy0 hy1 hmin hlo hhi
  obtain ⟨m1, m12, d1, dle, d31, hdays⟩ := absDate_spec ((t.sec + t.offset) / 86400)
  have hyear : t.Year = (absDate ((t.sec + t.offset) / 86400)).1 := rfl
  generalize hdate : absDate ((t.sec + t.offset) / 86400) = date at m1 m12 d1 dle d31 hdays hyear
  obtain ⟨yi, mi, di⟩ := date
  simp only at m1 m12 d1 dle d31 hdays hyear
  obtain ⟨y, rfl⟩ := Int.eq_ofNat_of_zero_le (hyear ▸ hy0)
  obtain ⟨m, rfl⟩ := Int.eq_ofNat_of_zero_le (a := mi) (by omega)
  obtain ⟨d, rfl⟩ := Int.eq_ofNat_of_zero_le (a := di) (by omega)
  obtain ⟨s, hs⟩ := Int.eq_ofNat_of_zero_le (a := (t.sec + t.offset) % 86400) (by omega)
  obtain ⟨k, hk⟩ : ∃ k : Int, t.offset = 60 * k := ⟨t.offset / 60, by omega⟩
  have hF := Format_digits t hy0 hy1 y m d s k hdate hs (by omega) (by omega) hk (by omega)
    (by omega)
  have hT : Trim ([quote] ++ t.Format ++ [quote]) [quote] = t.Format := by
    rw [hF]
    have h1 := (digitChar_spec (y / 1000) (by omega)).2.2.1
    have h2 := (digitChar_spec (k.natAbs % 60 % 10) (by omega)).2.2.1
    exact Trim_quoted _ (by simp) (by simpa using h1) (by simpa using h2)
  simp only [awsTime.UnmarshalJSON, hT, hP]

/-! ## Expiry of the cached token (C1) -/

theorem Before_iff (t u : Time) :
    t.Before u = true ↔ (t.sec < u.sec ∨ (t.sec = u.sec ∧ t.nsec < u.nsec)) := by
  simp [Time.Before]

theorem loadSessionToken_cached (sys : Sys) (w : World) (data : GoString) (st : SessionToken)
    (hopen : sys.openErr = none) (hcache : w.cache = some data)
    (hdec : decodeSessionToken sys true data = .ok st) :
    loadSessionToken sys w =
      if st.IsExpired sys.now then promptMFA sys (w.emit .openFile)
      else (.ok st, w.emit .openFile) := by
  simp [loadSessionToken, osOpen, hopen, World.emit, hcache, hdec]

/-- C1, as stated, fails: a cached record whose expiration equals `now` is not expired for
`loadSessionToken`; the cached record is returned and no renewal is run. -/
theorem C1_counterexample :
    decodeSessionToken sampleSys true (sampleEncode sampleDocument) = .ok sampleToken ∧
    sampleToken.Credentials.Expiration = sampleExpiration ∧
    sampleToken.IsExpired sampleExpiration = false ∧
    loadSessionToken { sampleSys with now := sampleExpiration } cachedWorld
      = (.ok sampleToken, cachedWorld.emit .openFile) ∧
    loadSessionToken { sampleSys with now := sampleExpiration } cachedWorld
      ≠ promptMFA { sampleSys with now := sampleExpiration } (cachedWorld.emit .openFile) := by
  decide

/-- C1, amended: for a cached record that decodes to `st`, `IsExpired` holds exactly when
the expiration is strictly earlier than `now`; then `loadSessionToken` runs `promptMFA`;
when the expiration equals `now` or is later, it returns `st` and does nothing but open
the file. -/
theorem C1_expiry_boundary (sys : Sys) (w : World) (data : GoString) (st : SessionToken)
    (hopen : sys.openErr = none) (hcache : w.cache = some data)
    (hdec : decodeSessionToken sys true data = .ok st) :
    (st.IsExpired sys.now = true ↔
      (st.Credentials.Expiration.sec < sys.now.sec ∨
        (st.Credentials.Expiration.sec = sys.now.sec ∧
          st.Credentials.Expiration.nsec < sys.now.nsec))) ∧
    ((st.Credentials.Expiration.sec < sys.now.sec ∨
        (st.Credentials.Expiration.sec = sys.now.sec ∧
          st.Credentials.Expiration.nsec < sys.now.nsec)) →
      loadSessionToken sys w = promptMFA sys (w.emit .openFile)) ∧
    ((sys.now.sec < st.Credentials.Expiration.sec ∨
        (sys.now.sec = st.Credentials.Expiration.sec ∧
          sys.now.nsec ≤ st.Credentials.Expiration.nsec)) →
      loadSessionToken sys w = (.ok st, w.emit .openFile) ∧
      (loadSessionToken sys w).2.cache = w.cache ∧
      effectsSince w (loadSessionToken sys w).2 = [.openFile]) := by
  have hload := loadSessionToken_cached sys w data st hopen hcache hdec
  refine ⟨Before_iff _ _, ?_, ?_⟩
  · intro h
    have : st.IsExpired sys.now = true := (Before_iff _ _).2 h
    rw [hload, this]; rfl
  · intro h
    have : st.IsExpired sys.now = false := by
      cases hb : st.IsExpired sys.now
      · rfl
      · have := (Before_iff _ _).1 hb
        omega
    rw [hload, this]
    simp [World.emit, effectsSince]

/-- C1 at a cached token that expires 10000 seconds after `now`. -/
theorem C1_expiry_boundary_witness :
    (sampleToken.IsExpired sampleSys.now = true ↔
      (sampleToken.Credentials.Expiration.sec < sampleSys.now.sec ∨
        (sampleToken.Credentials.Expiration.sec = sampleSys.now.sec ∧
          sampleToken.Credentials.Expiration.nsec < sampleSys.now.nsec))) ∧
    ((sampleToken.Credentials.Expiration.sec < sampleSys.now.sec ∨
        (sampleToken.Credentials.Expiration.sec = sampleSys.now.sec ∧
          sampleToken.Credentials.Expiration.nsec < sampleSys.now.nsec)) →
      loadSessionToken sampleSys cachedWorld = promptMFA sampleSys (cachedWorld.emit .openFile)) ∧
    ((sampleSys.now.sec < sampleToken.Credentials.Expiration.sec ∨
        (sampleSys.now.sec = sampleToken.Credentials.Expiration.sec ∧
          sampleSys.now.nsec ≤ sampleToken.Credentials.Expiration.nsec)) →
      loadSessionToken sampleSys cachedWorld = (.ok sampleToken, cachedWorld.emit .openFile) ∧
      (loadSessionToken sampleSys cachedWorld).2.cache = cachedWorld.cache ∧
      effectsSince cachedWorld (loadSessionToken sampleSys cachedWorld).2 = [.openFile]) :=
  C1_expiry_boundary sampleSys cachedWorld (sampleEncode sampleDocument) sampleToken
    (by decide) (by decide) (by decide)

/-! ## Frame lemmas for the renewal workflow -/

theorem emit_cache (w : World) (ev : Event) : (w.emit ev).cache = w.cache := rfl

theorem scanLine_cache (sys : Sys) (w : World) : (scanLine sys w).2.cache = w.cache := by
  unfold scanLine
  simp only []
  split
  · rfl
  · split <;> rfl

theorem getMFASerialNumber_snd (sys : Sys) (w : World) :
    (getMFASerialNumber sys w).2 = w.emit (.exec (listMFADevicesArgv sys) sys.environ) := by
  unfold getMFASerialNumber cmdRun
  cases cmdResult sys (listMFADevicesArgv sys) sys.environ with
  | error e => rfl
  | ok out =>
    simp only []
    cases sys.jsonDecodeDevices out with
    | error e => rfl
    | ok devices => cases devices <;> rfl

theorem getMFASerialNumber_fst (sys : Sys) (w w1 : World) :
    (getMFASerialNumber sys w).1 = (getMFASerialNumber sys w1).1 := by
  unfold getMFASerialNumber cmdRun
  cases cmdResult sys (listMFADevicesArgv sys) sys.environ with
  | error e => rfl
  | ok out =>
    simp only []
    cases sys.jsonDecodeDevices out with
    | error e => rfl
    | ok devices => cases devices <;> rfl

/-- C4: when device discovery fails, or the code-exchange command does not exit with
status 0, or its output does not decode into a `SessionToken`, `promptMFA` returns an
error and the cache file is as before the call, whatever it was. -/
theorem C4_no_partial_persistence (sys : Sys) (w : World)
    (h : (∃ e, (getMFASerialNumber sys w).1 = .error e) ∨
      (∃ code serial,
        (scanLine sys (w.emit (.stdout "OTP: ".toList))).1 = .ok code ∧
        (getMFASerialNumber sys w).1 = .ok serial ∧
        ((∀ out, sys.run (getSessionTokenArgv sys serial code) sys.environ ≠ .exited 0 out) ∨
          (∃ out e, sys.run (getSessionTokenArgv sys serial code) sys.environ = .exited 0 out ∧
            decodeSessionToken sys false out = .error e)))) :
    ∃ err, (promptMFA sys w).1 = .error err ∧ (promptMFA sys w).2.cache = w.cache := by
  unfold promptMFA
  simp only []
  split
  · rename_i err w1 hscan
    refine ⟨_, rfl, ?_⟩
    have := scanLine_cache sys (w.emit (.stdout "OTP: ".toList))
    rw [hscan] at this
    exact this
  · rename_i tokenCode w1 hscan
    have hw1 : w1.cache = w.cache := by
      have := scanLine_cache sys (w.emit (.stdout "OTP: ".toList))
      rw [hscan] at this
      exact this
    split
    · rename_i err w2 hget
      refine ⟨_, rfl, ?_⟩
      have := getMFASerialNumber_snd sys w1
      rw [hget] at this
      simp only at this
      rw [this, emit_cache, hw1]
    · rename_i serialNumber w2 hget
      have hw2 : w2.cache = w.cache := by
        have := getMFASerialNumber_snd sys w1
        rw [hget] at this
        simp only at this
        rw [this, emit_cache, hw1]
      have hser : (getMFASerialNumber sys w).1 = .ok serialNumber := by
        rw [getMFASerialNumber_fst sys w w1, hget]
      simp only [cmdRun]
      split
      · rename_i err w3 hrun
        refine ⟨_, rfl, ?_⟩
        have := congrArg Prod.snd hrun
        simp only at this
        rw [← this, emit_cache, hw2]
      · rename_i out w3 hrun
        have hw3 : w3.cache = w.cache := by
          have := congrArg Prod.snd hrun
          simp only at this
          rw [← this, emit_cache, hw2]
        have hres : cmdResult sys (getSessionTokenArgv sys serialNumber tokenCode) sys.environ
            = .ok out := by
          have := congrArg Prod.fst hrun
          simpa using this
        split
        · rename_i err hdec
          exact ⟨_, rfl, hw3⟩
        · rename_i st hdec
          exfalso
          rcases h with ⟨e, he⟩ | ⟨code, serial, hcode, hserial, hfail⟩
          · rw [hser] at he; cases he
          · rw [hscan] at hcode
            rw [hser] at hserial
            simp only [Except.ok.injEq] at hcode hserial
            subst hcode hserial
            have hrun2 : sys.run (getSessionTokenArgv sys serialNumber tokenCode) sys.environ
                = .exited 0 out := by
              unfold cmdResult at hres
              split at hres <;> simp_all
            rcases hfail with hne | ⟨out1, e, hout, hbad⟩
            · exact hne out hrun2
            · rw [hrun2] at hout
              simp only [ProcOutcome.exited.injEq, true_and] at hout
              subst hout
              rw [hdec] at hbad
              cases hbad

/-- C4 at a cache file that exists and a code-exchange command that exits with 255. -/
theorem C4_no_partial_persistence_witness :
    cachedWorld.cache = some (sampleEncode sampleDocument) ∧
    (∃ err, (promptMFA (sampleSysWith (.exited 0 "arn:aws:iam::1:mfa/alice".toList)
        (.exited 255 []) (.exited 0 [])) cachedWorld).1 = .error err ∧
      (promptMFA (sampleSysWith (.exited 0 "arn:aws:iam::1:mfa/alice".toList)
        (.exited 255 []) (.exited 0 [])) cachedWorld).2.cache = cachedWorld.cache) :=
  ⟨rfl, C4_no_partial_persistence _ cachedWorld
    (Or.inr ⟨"123456".toList, "arn:aws:iam::1:mfa/alice".toList, by decide, by decide,
      Or.inl (by intro out; simp [sampleSysWith, getSessionTokenArgv])⟩)⟩

/-! ## A corrupt cache (C3) -/

theorem unmarshalExpirations_error (raws : List GoString) (t : Time)
    (h : ∃ raw ∈ raws, (awsTime.UnmarshalJSON raw).toBool = false) :
    ∃ e, unmarshalExpirations raws t = .error e := by
  induction raws generalizing t with
  | nil => simp at h
  | cons raw rest ih =>
    unfold unmarshalExpirations
    cases hp : awsTime.UnmarshalJSON raw with
    | error e => exact ⟨e, rfl⟩
    | ok parsed =>
      simp only []
      apply ih
      obtain ⟨r, hr, hbad⟩ := h
      rcases List.mem_cons.1 hr with rfl | hmem
      · rw [hp] at hbad; simp [Except.toBool] at hbad
      · exact ⟨r, hmem, hbad⟩

/-- C3: when the cache file exists and its content does not decode (the JSON document is
malformed, or `awsTime.UnmarshalJSON` rejects an `Expiration` member because it does not
match the layout), `loadSessionToken` returns an error, and all it did was open the
file: no prompt, no read of standard input, no external command, no write; the cache
file is unchanged. -/
theorem C3_corrupt_cache_is_fatal (sys : Sys) (w : World) (data : GoString)
    (hcache : w.cache = some data)
    (hbad : (∃ e, sys.jsonDecodeToken true data = .error e) ∨
      (∃ doc, sys.jsonDecodeToken true data = .ok doc ∧
        ∃ raw ∈ doc.Expiration, (awsTime.UnmarshalJSON raw).toBool = false)) :
    (∃ err, (loadSessionToken sys w).1 = .error err) ∧
    (loadSessionToken sys w).2 = w.emit .openFile ∧
    (loadSessionToken sys w).2.cache = w.cache ∧
    (loadSessionToken sys w).2.stdin = w.stdin ∧
    effectsSince w (loadSessionToken sys w).2 = [.openFile] := by
  have hdec : ∃ e, decodeSessionToken sys true data = .error e := by
    unfold decodeSessionToken
    rcases hbad with ⟨e, he⟩ | ⟨doc, hdoc, hraw⟩
    · exact ⟨e, by rw [he]⟩
    · obtain ⟨e, he⟩ := unmarshalExpirations_error doc.Expiration Time.zero hraw
      exact ⟨e, by rw [hdoc]; simp only [he]⟩
  obtain ⟨e, he⟩ := hdec
  have hload : ∃ err, loadSessionToken sys w = (.error err, w.emit .openFile) := by
    cases hopen : sys.openErr with
    | some msg =>
      exact ⟨.wrap "open session token file" (.lib msg),
        by simp [loadSessionToken, osOpen, hopen, World.emit, GoError.isNotExist]⟩
    | none =>
      exact ⟨.wrap "decode session token file" e,
        by simp [loadSessionToken, osOpen, hopen, World.emit, hcache, he]⟩
  obtain ⟨err, hload⟩ := hload
  rw [hload]
  refine ⟨⟨_, rfl⟩, rfl, rfl, rfl, ?_⟩
  simp [effectsSince, World.emit]

/-- C3 at a cache file that holds a truncated document. -/
theorem C3_corrupt_cache_is_fatal_witness :
    (∃ err, (loadSessionToken sampleSys
        { cache := some "ASIAEXAMPLE".toList, stdin := ["123456".toList], trace := [] }).1
      = .error err) ∧
    effectsSince { cache := some "ASIAEXAMPLE".toList, stdin := ["123456".toList], trace := [] }
      (loadSessionToken sampleSys
        { cache := some "ASIAEXAMPLE".toList, stdin := ["123456".toList], trace := [] }).2
      = [.openFile] :=
  have h := C3_corrupt_cache_is_fatal sampleSys
    { cache := some "ASIAEXAMPLE".toList, stdin := ["123456".toList], trace := [] }
    "ASIAEXAMPLE".toList rfl (Or.inl ⟨.lib "unexpected end of JSON input", by decide⟩)
  ⟨h.1, h.2.2.2.2⟩

/-! ## The trace of the renewal workflow -/

theorem scanLine_ok (sys : Sys) (w : World) (h : sys.stdinErr = none) :
    scanLine sys w = (.ok (w.stdin.headD []),
      { cache := w.cache, stdin := w.stdin.tail, trace := w.trace ++ [.readLine] }) := by
  unfold scanLine
  simp only [h, World.emit]
  cases hs : w.stdin <;> simp

theorem scanLine_error (sys : Sys) (w : World) (msg : String) (h : sys.stdinErr = some msg) :
    scanLine sys w = (.error (.lib msg), w.emit .readLine) := by
  unfold scanLine
  simp only [h]

theorem persistSessionToken_trace (sys : Sys) (st : SessionToken) (w : World) :
    ∃ evs, (persistSessionToken sys st w).2.trace = w.trace ++ evs ∧
      (persistSessionToken sys st w).2.stdin = w.stdin ∧
      (∀ ev ∈ evs, ev = .mkdirAll ∨ ev = .createFile ∨ ∃ d, ev = .writeFile d) ∧
      ∃ more data, evs ++ more = [.mkdirAll, .createFile, .writeFile data] := by
  unfold persistSessionToken osMkdirAll osCreate osWrite encodeSessionToken awsTime.MarshalJSON
  simp only [World.emit]
  cases sys.mkdirErr with
  | some msg => exact ⟨[.mkdirAll], rfl, rfl, by simp, [.createFile, .writeFile []], [], rfl⟩
  | none =>
    cases sys.createErr with
    | some msg =>
      exact ⟨[.mkdirAll, .createFile], by simp, rfl, by simp, [.writeFile []], [], rfl⟩
    | none =>
      cases sys.writeErr with
      | some p =>
        exact ⟨[.mkdirAll, .createFile, .writeFile _], by simp; rfl, rfl, by simp, [], _, rfl⟩
      | none =>
        exact ⟨[.mkdirAll, .createFile, .writeFile _], by simp; rfl, rfl, by simp, [], _, rfl⟩

theorem persistSessionToken_ok (sys : Sys) (st : SessionToken) (w : World)
    (hmk : sys.mkdirErr = none) (hcr : sys.createErr = none) (hwr : sys.writeErr = none) :
    ∃ data, encodeSessionToken sys st = .ok data ∧
      persistSessionToken sys st w = (.ok (),
        { cache := some data, stdin := w.stdin,
          trace := w.trace ++ [.mkdirAll, .createFile, .writeFile data] }) := by
  refine ⟨_, rfl, ?_⟩
  simp [persistSessionToken, osMkdirAll, osCreate, osWrite, encodeSessionToken,
    awsTime.MarshalJSON, World.emit, hmk, hcr, hwr]

theorem promptMFA_stdin_error (sys : Sys) (w : World) (msg : String)
    (h : sys.stdinErr = some msg) :
    promptMFA sys w = (.error (.wrap "read OTP from stint" (.lib msg)),
      { cache := w.cache, stdin := w.stdin,
        trace := w.trace ++ [.stdout "OTP: ".toList, .readLine] }) := by
  unfold promptMFA
  simp [scanLine_error sys _ msg h, World.emit]

theorem promptMFA_trace (sys : Sys) (w : World) (hstdin : sys.stdinErr = none) :
    ((∃ e, (getMFASerialNumber sys w).1 = .error e) ∧
      (∃ e, (promptMFA sys w).1 = .error e) ∧
      (promptMFA sys w).2.cache = w.cache ∧
      (promptMFA sys w).2.trace = w.trace ++ [.stdout "OTP: ".toList, .readLine,
        .exec (listMFADevicesArgv sys) sys.environ]) ∨
    (∃ serial evs, (getMFASerialNumber sys w).1 = .ok serial ∧
      (promptMFA sys w).2.trace = w.trace ++ [.stdout "OTP: ".toList, .readLine,
        .exec (listMFADevicesArgv sys) sys.environ,
        .exec (getSessionTokenArgv sys serial (w.stdin.headD [])) sys.environ] ++ evs ∧
      (∀ ev ∈ evs, ev = .mkdirAll ∨ ev = .createFile ∨ ∃ d, ev = .writeFile d) ∧
      ∃ more data, evs ++ more = [.mkdirAll, .createFile, .writeFile data]) := by
  unfold promptMFA
  simp only [scanLine_ok sys _ hstdin]
  obtain ⟨w1, hw1⟩ : ∃ w1 : World, w1 = ⟨(w.emit (.stdout "OTP: ".toList)).cache,
      (w.emit (.stdout "OTP: ".toList)).stdin.tail,
      (w.emit (.stdout "OTP: ".toList)).trace ++ [.readLine]⟩ := ⟨_, rfl⟩
  rw [← hw1]
  have hw1t : w1.trace = w.trace ++ [.stdout "OTP: ".toList, .readLine] := by
    rw [hw1]; simp [World.emit]
  have hw1c : w1.cache = w.cache := by rw [hw1]; rfl
  clear hw1
  have hsnd := getMFASerialNumber_snd sys w1
  have hfst := getMFASerialNumber_fst sys w w1
  generalize getMFASerialNumber sys w1 = r at hsnd hfst
  obtain ⟨res, w2⟩ := r
  simp only at hsnd hfst
  subst hsnd
  cases res with
  | error e =>
    left
    exact ⟨⟨e, hfst⟩, ⟨_, rfl⟩, by simp [World.emit, hw1c], by simp [World.emit, hw1t]⟩
  | ok serial =>
    right
    simp only [cmdRun]
    have hd : (w.emit (.stdout "OTP: ".toList)).stdin.headD [] = w.stdin.headD [] := rfl
    rw [hd]
    cases cmdResult sys (getSessionTokenArgv sys serial (w.stdin.headD [])) sys.environ with
    | error e =>
      exact ⟨serial, [], hfst, by simp [World.emit, hw1t], by simp, _, [], List.nil_append _⟩
    | ok out =>
      simp only []
      cases decodeSessionToken sys false out with
      | error e =>
        exact ⟨serial, [], hfst, by simp [World.emit, hw1t], by simp, _, [], List.nil_append _⟩
      | ok st =>
        simp only []
        obtain ⟨evs, htr, -, hevs, hmore⟩ := persistSessionToken_trace sys st
          ((w1.emit (.exec (listMFADevicesArgv sys) sys.environ)).emit
            (.exec (getSessionTokenArgv sys serial (w.stdin.headD [])) sys.environ))
        refine ⟨serial, evs, hfst, ?_, hevs, hmore⟩
        generalize persistSessionToken sys st _ = pr at htr
        obtain ⟨pres, w3⟩ := pr
        cases pres <;> simp only [] <;> simp only at htr <;> rw [htr] <;>
          simp [World.emit, hw1t]

theorem effectsSince_of_trace (w w1 : World) (evs : List Event)
    (h : w1.trace = w.trace ++ evs) : effectsSince w w1 = evs := by
  simp [effectsSince, h]

theorem cmdResult_exited_zero (sys : Sys) (argv env : List GoString) (out : GoString)
    (h : sys.run argv env = .exited 0 out) : cmdResult sys argv env = .ok out := by
  simp [cmdResult, h]

theorem promptMFA_ok (sys : Sys) (w : World) (serial out : GoString) (st : SessionToken)
    (hstdin : sys.stdinErr = none)
    (hser : (getMFASerialNumber sys w).1 = .ok serial)
    (hrun : sys.run (getSessionTokenArgv sys serial (w.stdin.headD [])) sys.environ
      = .exited 0 out)
    (hdec : decodeSessionToken sys false out = .ok st)
    (hmk : sys.mkdirErr = none) (hcr : sys.createErr = none) (hwr : sys.writeErr = none) :
    ∃ data, encodeSessionToken sys st = .ok data ∧
      promptMFA sys w = (.ok st,
        { cache := some data, stdin := w.stdin.tail,
          trace := w.trace ++ [.stdout "OTP: ".toList, .readLine,
            .exec (listMFADevicesArgv sys) sys.environ,
            .exec (getSessionTokenArgv sys serial (w.stdin.headD [])) sys.environ,
            .mkdirAll, .createFile, .writeFile data] }) := by
  obtain ⟨data, henc, hper⟩ := persistSessionToken_ok sys st
    ⟨w.cache, w.stdin.tail, w.trace ++ [.stdout "OTP: ".toList, .readLine,
      .exec (listMFADevicesArgv sys) sys.environ,
      .exec (getSessionTokenArgv sys serial (w.stdin.headD [])) sys.environ]⟩ hmk hcr hwr
  refine ⟨data, henc, ?_⟩
  unfold promptMFA
  simp only [scanLine_ok sys _ hstdin]
  obtain ⟨w1, hw1⟩ : ∃ w1 : World, w1 = ⟨(w.emit (.stdout "OTP: ".toList)).cache,
      (w.emit (.stdout "OTP: ".toList)).stdin.tail,
      (w.emit (.stdout "OTP: ".toList)).trace ++ [.readLine]⟩ := ⟨_, rfl⟩
  rw [← hw1]
  have hsnd := getMFASerialNumber_snd sys w1
  have hfst := getMFASerialNumber_fst sys w w1
  rw [hser] at hfst
  generalize getMFASerialNumber sys w1 = r at hsnd hfst
  obtain ⟨res, w2⟩ := r
  simp only at hsnd hfst
  subst hsnd hfst
  have hd : (w.emit (.stdout "OTP: ".toList)).stdin.headD [] = w.stdin.headD [] := rfl
  simp only [cmdRun, hd, cmdResult_exited_zero sys _ _ out hrun, hdec]
  have hw : (w1.emit (.exec (listMFADevicesArgv sys) sys.environ)).emit
      (.exec (getSessionTokenArgv sys serial (w.stdin.headD [])) sys.environ)
      = ⟨w.cache, w.stdin.tail, w.trace ++ [.stdout "OTP: ".toList, .readLine,
      .exec (listMFADevicesArgv sys) sys.environ,
      .exec (getSessionTokenArgv sys serial (w.stdin.headD [])) sys.environ]⟩ := by
    rw [hw1]; simp [World.emit]
  rw [hw, hper]
  simp

theorem loadSessionToken_absent (sys : Sys) (w : World)
    (hopen : sys.openErr = none) (hcache : w.cache = none) :
    loadSessionToken sys w = promptMFA sys (w.emit .openFile) := by
  simp [loadSessionToken, osOpen, hopen, World.emit, hcache, GoError.isNotExist]

/-- C5, as stated, fails: with no cache file and a device-discovery command that exits
with status 1, `loadSessionToken` makes no code-exchange call at all. -/
theorem C5_counterexample :
    sampleWorld.cache = none ∧
    (effectsSince sampleWorld (loadSessionToken
      (sampleSysWith (.exited 1 []) (.exited 0 (sampleEncode sampleDocument)) (.exited 0 []))
      sampleWorld).2).countP Event.isDeviceDiscovery = 1 ∧
    (effectsSince sampleWorld (loadSessionToken
      (sampleSysWith (.exited 1 []) (.exited 0 (sampleEncode sampleDocument)) (.exited 0 []))
      sampleWorld).2).countP Event.isCodeExchange = 0 := by
  decide

theorem isDeviceDiscovery_list (sys : Sys) (env : List GoString) :
    Event.isDeviceDiscovery (.exec (listMFADevicesArgv sys) env) = true ∧
    Event.isCodeExchange (.exec (listMFADevicesArgv sys) env) = false := by
  constructor <;> simp [Event.isDeviceDiscovery, Event.isCodeExchange, listMFADevicesArgv]

theorem isCodeExchange_sts (sys : Sys) (serial code : GoString) (env : List GoString) :
    Event.isCodeExchange (.exec (getSessionTokenArgv sys serial code) env) = true ∧
    Event.isDeviceDiscovery (.exec (getSessionTokenArgv sys serial code) env) = false := by
  constructor <;> simp [Event.isDeviceDiscovery, Event.isCodeExchange, getSessionTokenArgv]

theorem countP_file_events (evs : List Event)
    (h : ∀ ev ∈ evs, ev = .mkdirAll ∨ ev = .createFile ∨ ∃ d, ev = .writeFile d) :
    evs.countP Event.isDeviceDiscovery = 0 ∧ evs.countP Event.isCodeExchange = 0 ∧
    evs.countP Event.isOtpInput = 0 := by
  refine ⟨?_, ?_, ?_⟩ <;> rw [List.countP_eq_zero] <;> intro ev hev <;>
    rcases h ev hev with rfl | rfl | ⟨d, rfl⟩ <;> simp [Event.isDeviceDiscovery,
      Event.isCodeExchange, Event.isOtpInput]

/-- C5, amended: when the cache file does not exist and standard input can be read,
`loadSessionToken` makes exactly one device-discovery call; it makes exactly one
code-exchange call when device discovery yields a serial number, and none when device
discovery fails; and when the code exchange exits with status 0, its output decodes to
`st` and the cache file can be written, it returns `st` and the cache file holds the
encoding of `st`. -/
theorem C5_cache_miss_renewal (sys : Sys) (w : World)
    (hopen : sys.openErr = none) (hcache : w.cache = none) (hstdin : sys.stdinErr = none) :
    (effectsSince w (loadSessionToken sys w).2).countP Event.isDeviceDiscovery = 1 ∧
    (∀ serial, (getMFASerialNumber sys w).1 = .ok serial →
      (effectsSince w (loadSessionToken sys w).2).countP Event.isCodeExchange = 1) ∧
    ((∃ e, (getMFASerialNumber sys w).1 = .error e) →
      (effectsSince w (loadSessionToken sys w).2).countP Event.isCodeExchange = 0) ∧
    (∀ serial out st, (getMFASerialNumber sys w).1 = .ok serial →
      sys.run (getSessionTokenArgv sys serial (w.stdin.headD [])) sys.environ = .exited 0 out →
      decodeSessionToken sys false out = .ok st →
      sys.mkdirErr = none → sys.createErr = none → sys.writeErr = none →
      (loadSessionToken sys w).1 = .ok st ∧
      ∃ data, encodeSessionToken sys st = .ok data ∧
        (loadSessionToken sys w).2.cache = some data) := by
  have hload := loadSessionToken_absent sys w hopen hcache
  have hfst := getMFASerialNumber_fst sys w (w.emit .openFile)
  have hl := isDeviceDiscovery_list sys sys.environ
  have e1 : Event.isDeviceDiscovery .openFile = false := rfl
  have e2 : Event.isCodeExchange .openFile = false := rfl
  have e3 : ∀ text, Event.isDeviceDiscovery (.stdout text) = false := fun _ => rfl
  have e4 : ∀ text, Event.isCodeExchange (.stdout text) = false := fun _ => rfl
  have e5 : Event.isDeviceDiscovery .readLine = false := rfl
  have e6 : Event.isCodeExchange .readLine = false := rfl
  have key : ∀ n : Nat,
      ((∃ e, (getMFASerialNumber sys w).1 = .error e) → n = 0) →
      ((∃ serial, (getMFASerialNumber sys w).1 = .ok serial) → n = 1) →
      (effectsSince w (loadSessionToken sys w).2).countP Event.isDeviceDiscovery = 1 ∧
      (effectsSince w (loadSessionToken sys w).2).countP Event.isCodeExchange = n := by
    intro n h0 h1
    rcases promptMFA_trace sys (w.emit .openFile) hstdin with
      ⟨herr, -, -, htr⟩ | ⟨serial, evs, hser, htr, hevs, -⟩
    · rw [← hfst] at herr
      rw [h0 herr, hload, effectsSince_of_trace w _ (.openFile :: [.stdout "OTP: ".toList,
        .readLine, .exec (listMFADevicesArgv sys) sys.environ]) (by rw [htr]; simp [World.emit])]
      simp [List.countP_cons, hl.1, hl.2, e1, e2, e3, e4, e5, e6]
    · rw [← hfst] at hser
      have hs1 := fun code => (isCodeExchange_sts sys serial code sys.environ).1
      have hs2 := fun code => (isCodeExchange_sts sys serial code sys.environ).2
      obtain ⟨c1, c2, -⟩ := countP_file_events evs hevs
      rw [h1 ⟨serial, hser⟩, hload, effectsSince_of_trace w _ (.openFile ::
        ([.stdout "OTP: ".toList, .readLine, .exec (listMFADevicesArgv sys) sys.environ,
          .exec (getSessionTokenArgv sys serial ((w.emit .openFile).stdin.headD []))
            sys.environ] ++ evs)) (by rw [htr]; simp [World.emit])]
      simp [List.countP_cons, List.countP_append, hl.1, hl.2, hs1, hs2, c1, c2,
        e1, e2, e3, e4, e5, e6]
  refine ⟨?_, ?_, ?_, ?_⟩
  · cases hres : (getMFASerialNumber sys w).1 with
    | error e => exact (key 0 (fun _ => rfl) (fun ⟨s, hs⟩ => by rw [hres] at hs; cases hs)).1
    | ok s => exact (key 1 (fun ⟨e, he⟩ => by rw [hres] at he; cases he) (fun _ => rfl)).1
  · intro serial hser
    exact (key 1 (fun ⟨e, he⟩ => by rw [hser] at he; cases he) (fun _ => rfl)).2
  · intro ⟨e, he⟩
    exact (key 0 (fun _ => rfl) (fun ⟨s, hs⟩ => by rw [he] at hs; cases hs)).2
  · intro serial out st hser hrun hdec hmk hcr hwr
    rw [hfst] at hser
    obtain ⟨data, henc, hp⟩ := promptMFA_ok sys (w.emit .openFile) serial out st hstdin hser
      hrun hdec hmk hcr hwr
    rw [hload, hp]
    exact ⟨rfl, data, henc, rfl⟩

/-- C5 at the sample system with no cache file. -/
theorem C5_cache_miss_renewal_witness :
    sampleSys.openErr = none ∧ sampleWorld.cache = none ∧ sampleSys.stdinErr = none ∧
    (effectsSince sampleWorld (loadSessionToken sampleSys sampleWorld).2).countP
      Event.isDeviceDiscovery = 1 ∧
    (effectsSince sampleWorld (loadSessionToken sampleSys sampleWorld).2).countP
      Event.isCodeExchange = 1 ∧
    (loadSessionToken sampleSys sampleWorld).1 = .ok sampleToken ∧
    (∃ data, encodeSessionToken sampleSys sampleToken = .ok data ∧
      (loadSessionToken sampleSys sampleWorld).2.cache = some data) :=
  have h := C5_cache_miss_renewal sampleSys sampleWorld rfl rfl rfl
  have h4 := h.2.2.2 "arn:aws:iam::1:mfa/alice".toList (sampleEncode sampleDocument)
    sampleToken (by decide) (by decide) (by decide) rfl rfl rfl
  ⟨rfl, rfl, rfl, h.1, h.2.1 "arn:aws:iam::1:mfa/alice".toList (by decide), h4.1, h4.2⟩

/-! ## The order of the renewal steps (C6) -/

/-- C6, as stated, fails: with no MFA device registered, `promptMFA` has prompted for and
read the one-time code before it runs device discovery and fails. -/
theorem C6_counterexample :
    (sampleSysWith (.exited 0 []) (.exited 0 []) (.exited 0 [])).jsonDecodeDevices [] = .ok [] ∧
    (promptMFA (sampleSysWith (.exited 0 []) (.exited 0 []) (.exited 0 [])) sampleWorld).1
      = .error (.wrap "get MFA serial number" (.errorf "no MFA devices configured")) ∧
    (promptMFA (sampleSysWith (.exited 0 []) (.exited 0 []) (.exited 0 [])) sampleWorld).2.trace
      = [.stdout "OTP: ".toList, .readLine,
         .exec (listMFADevicesArgv (sampleSysWith (.exited 0 []) (.exited 0 []) (.exited 0 [])))
           (sampleSysWith (.exited 0 []) (.exited 0 []) (.exited 0 [])).environ] ∧
    (promptMFA (sampleSysWith (.exited 0 []) (.exited 0 []) (.exited 0 [])) sampleWorld).2.stdin
      = [] := by
  decide

/-- C6, amended: in every run of `promptMFA` the effects are an initial part of the
sequence prompt, read of the one-time code, device discovery, code exchange, creation of
the data directory, creation of the file, write of the file, and contain at least the
prompt and the read; so the one-time code is read before device discovery runs.  When no
MFA device is registered the workflow fails after the read and the device discovery,
without a code exchange and with the cache file unchanged. -/
theorem C6_renewal_order (sys : Sys) (w : World) :
    (∃ rest more serial data,
      effectsSince w (promptMFA sys w).2 = .stdout "OTP: ".toList :: .readLine :: rest ∧
      rest ++ more = [.exec (listMFADevicesArgv sys) sys.environ,
        .exec (getSessionTokenArgv sys serial (w.stdin.headD [])) sys.environ,
        .mkdirAll, .createFile, .writeFile data]) ∧
    (sys.stdinErr = none →
      (∃ out, sys.run (listMFADevicesArgv sys) sys.environ = .exited 0 out ∧
        sys.jsonDecodeDevices out = .ok []) →
      (promptMFA sys w).1
        = .error (.wrap "get MFA serial number" (.errorf "no MFA devices configured")) ∧
      effectsSince w (promptMFA sys w).2 = [.stdout "OTP: ".toList, .readLine,
        .exec (listMFADevicesArgv sys) sys.environ] ∧
      (promptMFA sys w).2.cache = w.cache) := by
  constructor
  · cases hstdin : sys.stdinErr with
    | some msg =>
      rw [promptMFA_stdin_error sys w msg hstdin]
      exact ⟨[], _, [], [], effectsSince_of_trace _ _ _ rfl, List.nil_append _⟩
    | none =>
      rcases promptMFA_trace sys w hstdin with
        ⟨-, -, -, htr⟩ | ⟨serial, evs, -, htr, -, more, data, hmore⟩
      · exact ⟨[.exec (listMFADevicesArgv sys) sys.environ], _, [], [],
          effectsSince_of_trace _ _ _ htr, rfl⟩
      · refine ⟨.exec (listMFADevicesArgv sys) sys.environ ::
          .exec (getSessionTokenArgv sys serial (w.stdin.headD [])) sys.environ :: evs,
          more, serial, data, effectsSince_of_trace _ _ _ (by rw [htr]; simp), ?_⟩
        simp [hmore]
  · intro hstdin ⟨out, hrun, hdev⟩
    have hget : ∀ w1, getMFASerialNumber sys w1 = (.error (.errorf "no MFA devices configured"),
        w1.emit (.exec (listMFADevicesArgv sys) sys.environ)) := by
      intro w1
      simp [getMFASerialNumber, cmdRun, cmdResult_exited_zero sys _ _ out hrun, hdev]
    unfold promptMFA
    simp only [scanLine_ok sys _ hstdin, hget]
    simp [effectsSince, World.emit]

/-- C6 at a system whose device list is empty. -/
theorem C6_renewal_order_witness :
    (sampleSysWith (.exited 0 []) (.exited 0 []) (.exited 0 [])).stdinErr = none ∧
    effectsSince sampleWorld
      (promptMFA (sampleSysWith (.exited 0 []) (.exited 0 []) (.exited 0 [])) sampleWorld).2
      = [.stdout "OTP: ".toList, .readLine,
        .exec (listMFADevicesArgv (sampleSysWith (.exited 0 []) (.exited 0 []) (.exited 0 [])))
          (sampleSysWith (.exited 0 []) (.exited 0 []) (.exited 0 [])).environ] :=
  ⟨rfl, ((C6_renewal_order (sampleSysWith (.exited 0 []) (.exited 0 []) (.exited 0 []))
    sampleWorld).2 rfl ⟨[], by decide, by decide⟩).2.1⟩

/-! ## Exit status of the process (C7) -/

/-- C7: when the token is loaded and the arguments are not a reserved subcommand, the
process exits with the exit status of the wrapped command, whatever it is, and prints no
error; when the wrapped command cannot be started, the process logs the error and exits
with status 1. -/
theorem C7_exit_code_passthrough (sys : Sys) (w w1 : World) (st : SessionToken)
    (hdel : ¬ (sys.args.length = 2 ∧ sys.args[1]? = some "delete-session-token".toList))
    (hexp : ¬ (sys.args.length = 2 ∧ sys.args[1]? = some "export-envs".toList))
    (hload : loadSessionToken sys w = (.ok st, w1)) :
    (∀ c out, sys.run (awsCliCmd :: sys.args.drop 1) (st.Env sys.environ) = .exited c out →
      main sys w = ((c : Int),
        w1.emit (.exec (awsCliCmd :: sys.args.drop 1) (st.Env sys.environ)))) ∧
    (∀ msg, sys.run (awsCliCmd :: sys.args.drop 1) (st.Env sys.environ) = .notStarted msg →
      main sys w = (1,
        (w1.emit (.exec (awsCliCmd :: sys.args.drop 1) (st.Env sys.environ))).emit
          (.logPrint (.wrap "run AWS CLI" (.lib msg))))) := by
  have hmain : main sys w =
      match runAWSCli sys st w1 with
      | (.error err, w2) =>
        match err.asExitError with
        | some exitCode => (exitCode, w2)
        | none => (1, w2.emit (.logPrint err))
      | (.ok (), w2) => (0, w2) := by
    unfold main
    rw [if_neg hdel]
    simp only [hload]
    rw [if_neg hexp]
  rw [hmain]
  constructor
  · intro c out hrun
    cases c with
    | zero => simp only [runAWSCli, cmdRun, cmdResult, hrun]; rfl
    | succ n =>
      simp only [runAWSCli, cmdRun, cmdResult, hrun, GoError.asExitError]
      simp
  · intro msg hrun
    simp only [runAWSCli, cmdRun, cmdResult, hrun, GoError.asExitError]

/-- C7 at a wrapped command that exits with status 7. -/
theorem C7_exit_code_passthrough_witness :
    loadSessionToken sampleSys cachedWorld = (.ok sampleToken, cachedWorld.emit .openFile) ∧
    sampleSys.run (awsCliCmd :: sampleSys.args.drop 1) (sampleToken.Env sampleSys.environ)
      = .exited 7 [] ∧
    (main sampleSys cachedWorld).1 = 7 :=
  have hload : loadSessionToken sampleSys cachedWorld
      = (.ok sampleToken, cachedWorld.emit .openFile) := by decide
  have hrun : sampleSys.run (awsCliCmd :: sampleSys.args.drop 1)
      (sampleToken.Env sampleSys.environ) = .exited 7 [] := by decide
  ⟨hload, hrun, congrArg Prod.fst ((C7_exit_code_passthrough sampleSys cachedWorld _ sampleToken
    (by decide) (by decide) hload).1 7 [] hrun)⟩

/-! ## Deleting the cache (C8) -/

theorem osRemoveAll_ok (sys : Sys) (w : World) (h : sys.removeErr (w.emit .removeAll) = none) :
    osRemoveAll sys w = (.ok (), ⟨none, w.stdin, w.trace ++ [.removeAll]⟩) := by
  unfold osRemoveAll osRemove
  simp only [h]
  cases hc : w.cache <;> simp [World.emit, hc, GoError.isNotExist]

theorem osRemoveAll_refused (sys : Sys) (w : World) (msg : String)
    (h : sys.removeErr (w.emit .removeAll) = some msg) :
    osRemoveAll sys w = (.error (.lib msg), w.emit .removeAll) := by
  unfold osRemoveAll osRemove
  simp [h, GoError.isNotExist]

/-- C8, as stated, fails: when the operating system refuses the removal (here because a
component of the path is not a directory), `deleteSessionToken` returns that error
although no cache file exists, and so does a second call. -/
theorem C8_counterexample :
    sampleWorld.cache = none ∧
    (deleteSessionToken { sampleSys with removeErr := fun _ => some "not a directory" }
      sampleWorld).1 = .error (.lib "not a directory") ∧
    (deleteSessionToken { sampleSys with removeErr := fun _ => some "not a directory" }
      (deleteSessionToken { sampleSys with removeErr := fun _ => some "not a directory" }
        sampleWorld).2).1 = .error (.lib "not a directory") := by
  decide

/-- C8, amended: for every cache state, `deleteSessionToken` returns an error exactly when
the operating system refuses the removal for another reason than the absence of the
file, and then it returns that error and leaves the cache as it was; otherwise it
returns no error and leaves the cache absent, whether or not a cached record existed:
the absence of the file is never an error.  So of two calls in a row that the operating
system does not refuse, both return no error, and the cache after the second is as
after the first. -/
theorem C8_delete_idempotent (sys : Sys) (w : World) :
    ((deleteSessionToken sys w).1 = .ok () ↔ sys.removeErr (w.emit .removeAll) = none) ∧
    (sys.removeErr (w.emit .removeAll) = none →
      (deleteSessionToken sys w).2.cache = none ∧
      effectsSince w (deleteSessionToken sys w).2 = [.removeAll]) ∧
    (∀ msg, sys.removeErr (w.emit .removeAll) = some msg →
      (deleteSessionToken sys w).1 = .error (.lib msg) ∧
      (deleteSessionToken sys w).2.cache = w.cache) ∧
    (sys.removeErr (w.emit .removeAll) = none →
      sys.removeErr ((deleteSessionToken sys w).2.emit .removeAll) = none →
      (deleteSessionToken sys (deleteSessionToken sys w).2).1 = .ok () ∧
      (deleteSessionToken sys (deleteSessionToken sys w).2).2.cache
        = (deleteSessionToken sys w).2.cache) := by
  unfold deleteSessionToken
  refine ⟨?_, ?_, ?_, ?_⟩
  · cases h : sys.removeErr (w.emit .removeAll) with
    | none => rw [osRemoveAll_ok sys w h]; simp
    | some msg => rw [osRemoveAll_refused sys w msg h]; simp
  · intro h
    rw [osRemoveAll_ok sys w h]
    exact ⟨rfl, by simp [effectsSince]⟩
  · intro msg h
    rw [osRemoveAll_refused sys w msg h]
    exact ⟨rfl, rfl⟩
  · intro h1 h2
    rw [osRemoveAll_ok sys _ h2]
    rw [osRemoveAll_ok sys w h1]
    exact ⟨rfl, rfl⟩

/-- C8 at an absent and at a present cache file. -/
theorem C8_delete_idempotent_witness :
    sampleSys.removeErr (sampleWorld.emit .removeAll) = none ∧
    (deleteSessionToken sampleSys sampleWorld).1 = .ok () ∧
    (deleteSessionToken sampleSys cachedWorld).1 = .ok () ∧
    (deleteSessionToken sampleSys cachedWorld).2.cache = none ∧
    (deleteSessionToken sampleSys (deleteSessionToken sampleSys cachedWorld).2).1 = .ok () ∧
    (deleteSessionToken sampleSys (deleteSessionToken sampleSys cachedWorld).2).2.cache
      = (deleteSessionToken sampleSys cachedWorld).2.cache :=
  ⟨rfl, (C8_delete_idempotent sampleSys sampleWorld).1.2 rfl,
    (C8_delete_idempotent sampleSys cachedWorld).1.2 rfl,
    ((C8_delete_idempotent sampleSys cachedWorld).2.1 rfl).1,
    ((C8_delete_idempotent sampleSys cachedWorld).2.2.2 rfl rfl).1,
    ((C8_delete_idempotent sampleSys cachedWorld).2.2.2 rfl rfl).2⟩

/-! ## Device discovery (C10) -/

/-- C10: when the device-discovery command exits with status 0 and its output decodes to
the list `devices`, `getMFASerialNumber` fails with `no MFA devices configured` exactly
when the list is empty, and otherwise returns the serial number of the first device,
whatever follows it. -/
theorem C10_first_device_wins (sys : Sys) (w : World) (out : GoString)
    (devices : List MFADevice)
    (hrun : sys.run (listMFADevicesArgv sys) sys.environ = .exited 0 out)
    (hdec : sys.jsonDecodeDevices out = .ok devices) :
    ((getMFASerialNumber sys w).1 = .error (.errorf "no MFA devices configured")
      ↔ devices = []) ∧
    ((∃ e, (getMFASerialNumber sys w).1 = .error e) ↔ devices = []) ∧
    (∀ first rest, devices = first :: rest →
      (getMFASerialNumber sys w).1 = .ok first.SerialNumber) := by
  cases devices with
  | nil =>
    simp [getMFASerialNumber, cmdRun, cmdResult_exited_zero sys _ _ out hrun, hdec]
  | cons d ds =>
    simp [getMFASerialNumber, cmdRun, cmdResult_exited_zero sys _ _ out hrun, hdec]

/-- C10 at a device list of two devices. -/
theorem C10_first_device_wins_witness :
    (sampleSysWith (.exited 0 ("alice".toList ++ newline :: "bob".toList)) (.exited 0 []) (.exited 0 [])).jsonDecodeDevices
      ("alice".toList ++ newline :: "bob".toList) = .ok [⟨"alice".toList⟩, ⟨"bob".toList⟩] ∧
    (getMFASerialNumber (sampleSysWith (.exited 0 ("alice".toList ++ newline :: "bob".toList)) (.exited 0 [])
      (.exited 0 [])) sampleWorld).1 = .ok "alice".toList :=
  have hdec : (sampleSysWith (.exited 0 ("alice".toList ++ newline :: "bob".toList)) (.exited 0 [])
      (.exited 0 [])).jsonDecodeDevices ("alice".toList ++ newline :: "bob".toList)
      = .ok [⟨"alice".toList⟩, ⟨"bob".toList⟩] := by decide
  ⟨hdec, (C10_first_device_wins _ sampleWorld ("alice".toList ++ newline :: "bob".toList) _ (by decide) hdec).2.2
    ⟨"alice".toList⟩ [⟨"bob".toList⟩] rfl⟩

/-! ## The environment of the wrapped command (C9) -/

theorem dropWhile_name (name rest : GoString) (h : ∀ c ∈ name, c ≠ '=') :
    (name ++ rest).dropWhile (fun c => decide (c ≠ '='))
      = rest.dropWhile (fun c => decide (c ≠ '=')) := by
  induction name with
  | nil => rfl
  | cons c cs ih =>
    have hc : c ≠ '=' := h c (List.mem_cons_self _ _)
    simp only [List.cons_append, List.dropWhile_cons, hc, ne_eq, not_false_eq_true,
      decide_True, if_true]
    exact ih (fun d hd => h d (List.mem_cons_of_mem _ hd))

theorem takeWhile_name (name rest : GoString) (h : ∀ c ∈ name, c ≠ '=') :
    (name ++ '=' :: rest).takeWhile (fun c => decide (c ≠ '=')) = name := by
  induction name with
  | nil => simp [List.takeWhile]
  | cons c cs ih =>
    have hc : c ≠ '=' := h c (List.mem_cons_self _ _)
    simp only [List.cons_append, List.takeWhile_cons, hc, ne_eq, not_false_eq_true,
      decide_True, if_true]
    rw [ih (fun d hd => h d (List.mem_cons_of_mem _ hd))]

theorem splitEntry_assign (name value : GoString) (h : ∀ c ∈ name, c ≠ '=') :
    splitEntry (sprintfAssign name value) = some (name, value) := by
  have e : sprintfAssign name value = name ++ '=' :: value := by
    simp [sprintfAssign]
  unfold splitEntry
  rw [e, dropWhile_name name _ h, takeWhile_name name _ h]
  simp [List.dropWhile]

theorem lookupEnv_append_assign (env : List GoString) (name value key : GoString)
    (h : ∀ c ∈ name, c ≠ '=') :
    lookupEnv (env ++ [sprintfAssign name value]) key
      = if name = key then some value else lookupEnv env key := by
  simp [lookupEnv, List.foldl_append, splitEntry_assign name value h]

/-- C9: `t.Env()` is the process environment, in order and unmodified, followed by the
three entries for the access key id, the secret access key and the session token of `t`;
with the last entry for a name winning, these three variables resolve to the values of
`t` and every other variable resolves as in the process environment. -/
theorem C9_env_overrides (t : SessionToken) (environ : List GoString) :
    t.Env environ = environ ++
      ["AWS_ACCESS_KEY_ID=".toList ++ t.Credentials.AccessKeyId,
       "AWS_SECRET_ACCESS_KEY=".toList ++ t.Credentials.SecretAccessKey,
       "AWS_SESSION_TOKEN=".toList ++ t.Credentials.SessionToken] ∧
    lookupEnv (t.Env environ) "AWS_ACCESS_KEY_ID".toList = some t.Credentials.AccessKeyId ∧
    lookupEnv (t.Env environ) "AWS_SECRET_ACCESS_KEY".toList
      = some t.Credentials.SecretAccessKey ∧
    lookupEnv (t.Env environ) "AWS_SESSION_TOKEN".toList = some t.Credentials.SessionToken ∧
    (∀ name : GoString, name ≠ "AWS_ACCESS_KEY_ID".toList →
      name ≠ "AWS_SECRET_ACCESS_KEY".toList → name ≠ "AWS_SESSION_TOKEN".toList →
      lookupEnv (t.Env environ) name = lookupEnv environ name) := by
  have n1 : ∀ c ∈ "AWS_ACCESS_KEY_ID".toList, c ≠ '=' := by decide
  have n2 : ∀ c ∈ "AWS_SECRET_ACCESS_KEY".toList, c ≠ '=' := by decide
  have n3 : ∀ c ∈ "AWS_SESSION_TOKEN".toList, c ≠ '=' := by decide
  have d12 : "AWS_ACCESS_KEY_ID".toList ≠ "AWS_SECRET_ACCESS_KEY".toList := by decide
  have d13 : "AWS_ACCESS_KEY_ID".toList ≠ "AWS_SESSION_TOKEN".toList := by decide
  have d23 : "AWS_SECRET_ACCESS_KEY".toList ≠ "AWS_SESSION_TOKEN".toList := by decide
  have henv : t.Env environ = ((environ ++
      [sprintfAssign "AWS_ACCESS_KEY_ID".toList t.Credentials.AccessKeyId]) ++
      [sprintfAssign "AWS_SECRET_ACCESS_KEY".toList t.Credentials.SecretAccessKey]) ++
      [sprintfAssign "AWS_SESSION_TOKEN".toList t.Credentials.SessionToken] := rfl
  refine ⟨?_, ?_, ?_, ?_, ?_⟩
  · rw [henv]
    simp only [sprintfAssign, List.append_assoc]
    rfl
  · rw [henv, lookupEnv_append_assign _ _ _ _ n3, lookupEnv_append_assign _ _ _ _ n2,
      lookupEnv_append_assign _ _ _ _ n1, if_neg d13.symm, if_neg d12.symm, if_pos rfl]
  · rw [henv, lookupEnv_append_assign _ _ _ _ n3, lookupEnv_append_assign _ _ _ _ n2,
      if_neg d23.symm, if_pos rfl]
  · rw [henv, lookupEnv_append_assign _ _ _ _ n3, if_pos rfl]
  · intro name h1 h2 h3
    rw [henv, lookupEnv_append_assign _ _ _ _ n3, lookupEnv_append_assign _ _ _ _ n2,
      lookupEnv_append_assign _ _ _ _ n1, if_neg (Ne.symm h3), if_neg (Ne.symm h2),
      if_neg (Ne.symm h1)]

/-- C9 at an environment that already holds a stale session token. -/
theorem C9_env_overrides_witness :
    lookupEnv sampleSys.environ "AWS_SESSION_TOKEN".toList = some "stale".toList ∧
    lookupEnv (sampleToken.Env sampleSys.environ) "AWS_SESSION_TOKEN".toList
      = some "token".toList ∧
    lookupEnv (sampleToken.Env sampleSys.environ) "HOME".toList
      = lookupEnv sampleSys.environ "HOME".toList :=
  ⟨by decide, (C9_env_overrides sampleToken sampleSys.environ).2.2.2.1,
    (C9_env_overrides sampleToken sampleSys.environ).2.2.2.2 "HOME".toList
      (by decide) (by decide) (by decide)⟩

/-! ## Round trip of the timestamp and of the record (C2) -/

/-- C2, as stated, fails: the text that `MarshalJSON` writes for the first second of year
10000 has a five-digit year and `UnmarshalJSON` rejects it; an offset of 30 seconds is
written as `+00:00` and comes back as offset 0; an offset of 100 hours is written with
three hour digits and is rejected. -/
theorem C2_counterexample :
    (awsTime.MarshalJSON { sec := 253402300800, nsec := 0, offset := 0 }
        = .ok ([quote] ++ "10000-01-01T00:00:00+00:00".toList ++ [quote]) ∧
      (awsTime.UnmarshalJSON ([quote] ++ "10000-01-01T00:00:00+00:00".toList ++ [quote])).toBool
        = false) ∧
    (awsTime.MarshalJSON { sec := 1700000000, nsec := 0, offset := 30 }
        = .ok ([quote] ++ "2023-11-14T22:13:50+00:00".toList ++ [quote]) ∧
      awsTime.UnmarshalJSON ([quote] ++ "2023-11-14T22:13:50+00:00".toList ++ [quote])
        = .ok { sec := 1700000030, nsec := 0, offset := 0 }) ∧
    (awsTime.MarshalJSON { sec := 1700000000, nsec := 0, offset := 360000 }
        = .ok ([quote] ++ "2023-11-19T02:13:20+100:00".toList ++ [quote]) ∧
      (awsTime.UnmarshalJSON ([quote] ++ "2023-11-19T02:13:20+100:00".toList ++ [quote])).toBool
        = false) := by
  decide

/-- C2, amended: for every timestamp `t` whose year, in its own offset, is within 0..9999
and whose offset is a whole number of minutes between -24:59 and +24:59,
`UnmarshalJSON` accepts what `MarshalJSON` writes and yields the instant of `t` truncated
to whole seconds with the offset of `t`; hence, when `t` has no sub-second part, the file
can be written and `encoding/json` reads back the members it wrote, decoding what
`persistSessionToken` wrote for a token with expiration `t` yields that token. -/
theorem C2_roundtrip (t : Time) (hy0 : 0 ≤ t.Year) (hy1 : t.Year ≤ 9999)
    (hmin : t.offset % 60 = 0) (hlo : -89940 ≤ t.offset) (hhi : t.offset ≤ 89940) :
    (∃ data, awsTime.MarshalJSON t = .ok data ∧
      awsTime.UnmarshalJSON data = .ok { sec := t.sec, nsec := 0, offset := t.offset }) ∧
    (t.nsec = 0 → ∀ (sys : Sys) (w : World) (a s k : GoString),
      sys.mkdirErr = none → sys.createErr = none → sys.writeErr = none →
      sys.jsonDecodeToken true (sys.jsonEncodeToken
          { AccessKeyId := a, SecretAccessKey := s, SessionToken := k,
            Expiration := [[quote] ++ t.Format ++ [quote]] })
        = .ok { AccessKeyId := a, SecretAccessKey := s, SessionToken := k,
                Expiration := [[quote] ++ t.Format ++ [quote]] } →
      ∃ data,
        (persistSessionToken sys ⟨⟨a, s, k, t⟩⟩ w).1 = .ok () ∧
        (persistSessionToken sys ⟨⟨a, s, k, t⟩⟩ w).2.cache = some data ∧
        decodeSessionToken sys true data = .ok ⟨⟨a, s, k, t⟩⟩) := by
  have hrt := UnmarshalJSON_MarshalJSON t hy0 hy1 hmin hlo hhi
  refine ⟨⟨_, rfl, hrt⟩, ?_⟩
  intro hns sys w a s k hmk hcr hwr hlib
  obtain ⟨data, henc, hper⟩ := persistSessionToken_ok sys ⟨⟨a, s, k, t⟩⟩ w hmk hcr hwr
  refine ⟨data, by rw [hper], by rw [hper], ?_⟩
  have hdata : data = sys.jsonEncodeToken
      { AccessKeyId := a, SecretAccessKey := s, SessionToken := k,
        Expiration := [[quote] ++ t.Format ++ [quote]] } := by
    simp only [encodeSessionToken, awsTime.MarshalJSON, Except.ok.injEq] at henc
    exact henc.symm
  have ht : ({ sec := t.sec, nsec := 0, offset := t.offset } : Time) = t := by
    cases t; simp_all
  rw [hdata]
  simp only [decodeSessionToken, hlib, unmarshalExpirations, hrt, ht]

/-- C2 at the sample expiration and the sample token. -/
theorem C2_roundtrip_witness :
    (0 ≤ sampleExpiration.Year ∧ sampleExpiration.Year ≤ 9999) ∧
    awsTime.UnmarshalJSON ([quote] ++ sampleExpiration.Format ++ [quote])
      = .ok sampleExpiration ∧
    (∃ data,
      (persistSessionToken sampleSys sampleToken sampleWorld).1 = .ok () ∧
      (persistSessionToken sampleSys sampleToken sampleWorld).2.cache = some data ∧
      decodeSessionToken sampleSys true data = .ok sampleToken) :=
  have h := C2_roundtrip sampleExpiration (by decide) (by decide) (by decide) (by decide)
    (by decide)
  ⟨by decide, by decide,
    h.2 rfl sampleSys sampleWorld "ASIAEXAMPLE".toList "secret".toList "token".toList
      rfl rfl rfl (by decide)⟩

end Maws
